import Mathlib

set_option maxRecDepth 100000
set_option maxHeartbeats 2000000

/-!
Shallow embedding of the receipt fingerprinting, quota and field-edit logic of
`backend/routes/receipts.py` (functions `canonicalize_receipt`,
`compute_fingerprint`, `add_receipt`, `update_item_price`,
`update_receipt_field`) and the `Receipt` model of `backend/models.py`.

JSON values are modelled by `JVal`.  Python numbers (ints and floats as they
occur in JSON payloads) are modelled by exact fractions `PQ` compared by value
(cross multiplication), so that numeric comparisons and arithmetic mirror the
source exactly, without floating-point rounding.  Fallible Python code
(expressions that raise) is modelled with `Except Unit` / `Option`.
-/

/-- Exact fraction `n / d` standing in for a Python number.  Fractions are not
kept normalised; all comparisons go through cross multiplication. -/
structure PQ where
  n : Int
  d : Nat
deriving DecidableEq

def pqZero : PQ := ⟨0, 1⟩

def pqOne : PQ := ⟨1, 1⟩

def boolPQ (b : Bool) : PQ := if b then pqOne else pqZero

def pqMul (a b : PQ) : PQ := ⟨a.n * b.n, a.d * b.d⟩

def pqAdd (a b : PQ) : PQ := ⟨a.n * (b.d : Int) + b.n * (a.d : Int), a.d * b.d⟩

/-- Python `sum` of a list of numbers, starting from `0` and adding left to
right. -/
def pqSum (l : List PQ) : PQ := l.foldl pqAdd pqZero

def pqEqB (a b : PQ) : Bool := a.n * (b.d : Int) == b.n * (a.d : Int)

def pqLtB (a b : PQ) : Bool := decide (a.n * (b.d : Int) < b.n * (a.d : Int))

def pqLeB (a b : PQ) : Bool := decide (a.n * (b.d : Int) ≤ b.n * (a.d : Int))

/-- Python `date` value (year, month, day). -/
structure PyDate where
  year : Nat
  month : Nat
  day : Nat
deriving DecidableEq

def dateLtB (a b : PyDate) : Bool :=
  decide (a.year < b.year) ||
    (a.year == b.year && (decide (a.month < b.month) ||
      (a.month == b.month && decide (a.day < b.day))))

def dateLeB (a b : PyDate) : Bool := dateLtB a b || a == b

/-- The non-finite IEEE values `float('nan')`, `float('inf')` and
`float('-inf')`, which Python's `float()` can produce (and its json module
both parses and emits). -/
inductive NF where
  | nan
  | pinf
  | ninf
deriving DecidableEq

/-- JSON value as produced by Flask's `request.get_json()`: `null`, booleans,
numbers (including the non-finite floats that Python's json accepts and that
the edit routes can store), strings, arrays and objects (assoc lists of
string keys). -/
inductive JVal where
  | null
  | bool (b : Bool)
  | num (q : PQ)
  | nf (k : NF)
  | str (s : String)
  | arr (elems : List JVal)
  | obj (fields : List (String × JVal))

/-- Python truthiness (`bool(x)`) of a JSON value. -/
def truthyB : JVal → Bool
  | .null => false
  | .bool b => b
  | .num q => !(pqEqB q pqZero)
  | .nf _ => true
  | .str s => !(s == "")
  | .arr xs => !xs.isEmpty
  | .obj kvs => !kvs.isEmpty

/-- Python `a or b`. -/
def jvOr (a b : JVal) : JVal := if truthyB a then a else b

def jlookup : List (String × JVal) → String → Option JVal
  | [], _ => none
  | (k, v) :: rest, key => if k == key then some v else jlookup rest key

/-- Python `d.get(key)` on a dict: `None` both for a missing key and for a key
stored with value `None`.  On a non-dict the attribute access raises, which the
callers model through `jgetE`. -/
def jget (v : JVal) (key : String) : JVal :=
  match v with
  | .obj kvs => (jlookup kvs key).getD .null
  | _ => .null

/-- Python `d.get(key)`, raising (`Except.error`) when `d` is not a dict. -/
def jgetE (v : JVal) (key : String) : Except Unit JVal :=
  match v with
  | .obj kvs => .ok ((jlookup kvs key).getD .null)
  | _ => .error ()

/-- Python `d[key] = val` on a dict: overwrite in place, else append. -/
def jset : List (String × JVal) → String → JVal → List (String × JVal)
  | [], key, val => [(key, val)]
  | (k, v) :: rest, key, val =>
    if k == key then (key, val) :: rest else (k, v) :: jset rest key val

/-- Python iteration over a value: lists yield their elements, strings their
characters, dicts their keys; other values raise `TypeError`. -/
def jIter : JVal → Except Unit (List JVal)
  | .arr xs => .ok xs
  | .str s => .ok (s.data.map (fun c => .str (String.mk [c])))
  | .obj kvs => .ok (kvs.map (fun kv => .str kv.1))
  | _ => .error ()

def isObjB : JVal → Bool
  | .obj _ => true
  | _ => false

/-- Code points of a string; Python compares strings by code points. -/
def strCodes (s : String) : List Nat := s.data.map Char.toNat

def codesLtB : List Nat → List Nat → Bool
  | [], [] => false
  | [], _ :: _ => true
  | _ :: _, [] => false
  | a :: as, b :: bs => if a < b then true else if b < a then false else codesLtB as bs

def strLtB (a b : String) : Bool := codesLtB (strCodes a) (strCodes b)

/-- Numeric coercion source for `bool` and finite numbers, used by the index
guard of the edit routes. -/
def toPQ? : JVal → Option PQ
  | .num q => some q
  | .bool b => some (boolPQ b)
  | _ => none

/-- Result of a successful Python `float(...)`: a finite value (an exact
rational in this model) or a non-finite one. -/
inductive FVal where
  | fin (q : PQ)
  | nf (k : NF)
deriving DecidableEq

/-- The value a Python float takes when stored back into a JSON structure. -/
def fvalJ : FVal → JVal
  | .fin q => .num q
  | .nf k => .nf k

def pqSgn (q : PQ) : Int := if q.n = 0 then 0 else if q.n < 0 then -1 else 1

def nfMulSgn (k : NF) (s : Int) : FVal :=
  match k with
  | .nan => .nf .nan
  | .pinf => if s = 0 then .nf .nan else if s < 0 then .nf .ninf else .nf .pinf
  | .ninf => if s = 0 then .nf .nan else if s < 0 then .nf .pinf else .nf .ninf

/-- Python float multiplication: `nan` absorbs, an infinity times zero gives
`nan`, otherwise signs multiply. -/
def fvMul : FVal → FVal → FVal
  | .fin a, .fin b => .fin (pqMul a b)
  | .nf k, .fin b => nfMulSgn k (pqSgn b)
  | .fin a, .nf k => nfMulSgn k (pqSgn a)
  | .nf .nan, .nf _ => .nf .nan
  | .nf _, .nf .nan => .nf .nan
  | .nf .pinf, .nf .pinf => .nf .pinf
  | .nf .pinf, .nf .ninf => .nf .ninf
  | .nf .ninf, .nf .pinf => .nf .ninf
  | .nf .ninf, .nf .ninf => .nf .pinf

/-- Python float addition: `nan` absorbs, opposite infinities give `nan`. -/
def fvAdd : FVal → FVal → FVal
  | .fin a, .fin b => .fin (pqAdd a b)
  | .nf .nan, _ => .nf .nan
  | _, .nf .nan => .nf .nan
  | .nf k, .fin _ => .nf k
  | .fin _, .nf k => .nf k
  | .nf .pinf, .nf .pinf => .nf .pinf
  | .nf .ninf, .nf .ninf => .nf .ninf
  | _, _ => .nf .nan

/-- Python `sum(...)` over floats, from the integer start value `0`. -/
def fvSum (l : List FVal) : FVal := l.foldl fvAdd (.fin pqZero)

/-- Python `x <= 0` on a float: `False` for `nan` and `inf` (a comparison
with `nan` is `False`, never an error), `True` for `-inf` and for
non-positive finite values. -/
def fvLeZeroB : FVal → Bool
  | .fin q => pqLeB q pqZero
  | .nf .ninf => true
  | .nf _ => false

mutual
/-- Python `==` on JSON values: numbers (and booleans) compare by value,
strings by content, lists elementwise, dicts by their sorted key/value
pairs (dicts from parsed JSON have unique keys); mixed shapes are unequal. -/
def pyEq : JVal → JVal → Bool
  | .null, .null => true
  | .bool a, .bool b => pqEqB (boolPQ a) (boolPQ b)
  | .bool a, .num q => pqEqB (boolPQ a) q
  | .num q, .bool b => pqEqB q (boolPQ b)
  | .num p, .num q => pqEqB p q
  | .nf a, .nf b => (a == NF.pinf && b == NF.pinf) || (a == NF.ninf && b == NF.ninf)
  | .str a, .str b => a == b
  | .arr a, .arr b => pyEqL a b
  | .obj a, .obj b => pyEqP a b
  | _, _ => false
def pyEqL : List JVal → List JVal → Bool
  | [], [] => true
  | x :: xs, y :: ys => pyEq x y && pyEqL xs ys
  | _, _ => false
def pyEqP : List (String × JVal) → List (String × JVal) → Bool
  | [], [] => true
  | (k1, v1) :: xs, (k2, v2) :: ys => k1 == k2 && pyEq v1 v2 && pyEqP xs ys
  | _, _ => false
end

mutual
/-- Python `<` on JSON values: defined for number/boolean pairs, string pairs,
and list pairs (lexicographically, using `==` then `<` on elements); any other
combination raises `TypeError` (modelled by `Except.error`). -/
def pyLt : JVal → JVal → Except Unit Bool
  | .bool a, .bool b => .ok (pqLtB (boolPQ a) (boolPQ b))
  | .bool a, .num q => .ok (pqLtB (boolPQ a) q)
  | .num q, .bool b => .ok (pqLtB q (boolPQ b))
  | .num p, .num q => .ok (pqLtB p q)
  | .nf a, .nf b => .ok (a == NF.ninf && b == NF.pinf)
  | .nf a, .num _ => .ok (a == NF.ninf)
  | .num _, .nf b => .ok (b == NF.pinf)
  | .nf a, .bool _ => .ok (a == NF.ninf)
  | .bool _, .nf b => .ok (b == NF.pinf)
  | .str a, .str b => .ok (strLtB a b)
  | .arr a, .arr b => pyLtL a b
  | _, _ => .error ()
def pyLtL : List JVal → List JVal → Except Unit Bool
  | [], [] => .ok false
  | [], _ :: _ => .ok true
  | _ :: _, [] => .ok false
  | x :: xs, y :: ys => if pyEq x y then pyLtL xs ys else pyLt x y
end

/-- Python `<` on a pair (2-tuple): first components are compared with `==`,
and only on disagreement with `<`; ties move to the second component. -/
def tupLt (a b : JVal × JVal) : Except Unit Bool :=
  if pyEq a.1 b.1 then
    (if pyEq a.2 b.2 then .ok false else pyLt a.2 b.2)
  else pyLt a.1 b.1

/-- The sort key of `canonicalize_receipt`:
`lambda x: (x.get("name") or "", x.get("price") or 0)`. -/
def sortKeyPair (x : JVal) : JVal × JVal :=
  (jvOr (jget x "name") (.str ""), jvOr (jget x "price") (.num pqZero))

/-- Comparison actually performed between two items by Python's sort. -/
def itemLt (x y : JVal) : Except Unit Bool := tupLt (sortKeyPair x) (sortKeyPair y)

/-- Stable insertion step with a fallible comparator: `x` is placed before the
first element `y` that does not satisfy `y < x`. -/
def insertE (lt : α → α → Except Unit Bool) (x : α) : List α → Except Unit (List α)
  | [] => .ok [x]
  | y :: ys =>
    match lt y x with
    | .error e => .error e
    | .ok true =>
      match insertE lt x ys with
      | .error e => .error e
      | .ok r => .ok (y :: r)
    | .ok false => .ok (x :: y :: ys)

/-- Stable sort with a fallible comparator, modelling Python `sorted`: raises
iff a performed element comparison raises. -/
def sortE (lt : α → α → Except Unit Bool) : List α → Except Unit (List α)
  | [] => .ok []
  | x :: xs =>
    match sortE lt xs with
    | .error e => .error e
    | .ok r => insertE lt x r

/-- Pure stable insertion with a boolean comparator. -/
def insertLt (lt : α → α → Bool) (x : α) : List α → List α
  | [] => [x]
  | y :: ys => if lt y x then y :: insertLt lt x ys else x :: y :: ys

/-- Pure stable insertion sort with a boolean comparator. -/
def sortLt (lt : α → α → Bool) : List α → List α
  | [] => []
  | x :: xs => insertLt lt x (sortLt lt xs)

/-- Reduction of a raw item to the six canonical fields, in the dict order of
the source. -/
def canonItem (it : JVal) : JVal :=
  .obj [("name", jget it "name"), ("quantity", jget it "quantity"),
        ("category", jget it "category"), ("price", jget it "price"),
        ("total", jget it "total"), ("discount", jget it "discount")]

/-- The item comprehension body: `item.get(...)` raises on a non-dict item. -/
def canonItemE (it : JVal) : Except Unit JVal :=
  if isObjB it then .ok (canonItem it) else .error ()

/-- Evaluation of the item list comprehension, left to right, propagating a
raise. -/
def mapME (f : JVal → Except Unit JVal) : List JVal → Except Unit (List JVal)
  | [] => .ok []
  | x :: xs =>
    match f x with
    | .error e => .error e
    | .ok y =>
      match mapME f xs with
      | .error e => .error e
      | .ok ys => .ok (y :: ys)

/-- `canonicalize_receipt` from `backend/routes/receipts.py`: keep the seven
scalar fields via `data.get`, reduce each item to six fields, and sort the
item list by `(name or "", price or 0)` with Python's stable sort.  Any raise
inside the function (non-dict payload or item, uncomparable sort keys)
surfaces as `Except.error`. -/
def canonicalize_receipt (data : JVal) : Except Unit JVal := do
  let sc ← jgetE data "store_category"
  let sn ← jgetE data "store_name"
  let dt ← jgetE data "date"
  let tt ← jgetE data "total"
  let cur ← jgetE data "currency"
  let tax ← jgetE data "tax_amount"
  let td ← jgetE data "total_discount"
  let rawItems ← jgetE data "items"
  let itemsList ← jIter (jvOr rawItems (.arr []))
  let cItems ← mapME canonItemE itemsList
  let sorted ← sortE itemLt cItems
  .ok (.obj [("store_category", sc), ("store_name", sn), ("date", dt),
             ("total", tt), ("currency", cur), ("tax_amount", tax),
             ("total_discount", td), ("items", .arr sorted)])

/-- Concatenate a list of strings. -/
def concatAll : List String → String
  | [] => ""
  | s :: rest => s ++ concatAll rest

/-- Join with a separator, modelling `sep.join(...)`. -/
def joinWith (sep : String) : List String → String
  | [] => ""
  | [x] => x
  | x :: y :: rest => x ++ sep ++ joinWith sep (y :: rest)

def hexLow (n : Nat) : Char := "0123456789abcdef".data.getD (n % 16) '0'

def u4 (n : Nat) : String :=
  String.mk [hexLow (n / 4096), hexLow (n / 256), hexLow (n / 16), hexLow n]

/-- Short JSON escapes used by Python's `json.dumps`. -/
def escSpecial (c : Char) : Option String :=
  if c = '"' then some "\\\"" else if c = '\\' then some "\\\\"
  else if c = '\n' then some "\\n" else if c = '\t' then some "\\t"
  else if c = '\r' then some "\\r" else if c = '\x08' then some "\\b"
  else if c = '\x0c' then some "\\f" else none

/-- Escaping of one character by `json.dumps` with its default
`ensure_ascii=True`: characters outside `0x20..0x7e` become `\uXXXX`
(surrogate pairs above `0xffff`). -/
def escChar (c : Char) : String :=
  match escSpecial c with
  | some s => s
  | none =>
    if c.toNat < 32 ∨ 126 < c.toNat then
      if c.toNat < 65536 then "\\u" ++ u4 c.toNat
      else "\\u" ++ u4 (55296 + (c.toNat - 65536) / 1024) ++
           "\\u" ++ u4 (56320 + (c.toNat - 65536) % 1024)
    else String.mk [c]

def strDumps (s : String) : String :=
  "\"" ++ concatAll (s.data.map escChar) ++ "\""

/-- Scaled value `q * 10^k` when it is an integer. -/
def pqScaledInt? (q : PQ) (k : Nat) : Option Int :=
  if q.d ≠ 0 ∧ (q.n * ((10 ^ k : Nat) : Int)) % (q.d : Int) = 0 then
    some ((q.n * ((10 ^ k : Nat) : Int)) / (q.d : Int))
  else none

def intDigits (i : Int) : String := (if i < 0 then "-" else "") ++ Nat.repr i.natAbs

def findScale (q : PQ) : Option Nat := (List.range 61).find? (fun k => (pqScaledInt? q k).isSome)

def padLeftZeros (s : List Char) (len : Nat) : List Char :=
  List.replicate (len - s.length) '0' ++ s

/-- Decimal rendering of a number value: integers without a fractional part,
other terminating decimals with a dot (the digits of `q * 10^k` for the least
adequate `k`), and a fraction fallback for the values a decimal cannot
express.  The rendering depends only on the value of `q`. -/
def numDumps (q : PQ) : String :=
  match findScale q with
  | some 0 => intDigits ((pqScaledInt? q 0).getD 0)
  | some (k + 1) =>
    let m := (pqScaledInt? q (k + 1)).getD 0
    let ds := padLeftZeros (Nat.repr m.natAbs).data (k + 2)
    (if m < 0 then "-" else "") ++ String.mk (ds.take (ds.length - (k + 1))) ++
      "." ++ String.mk (ds.drop (ds.length - (k + 1)))
  | none => intDigits q.n ++ "/" ++ Nat.repr q.d

def pairKeyLtB (a b : String × String) : Bool := strLtB a.1 b.1

mutual
/-- Serialization of `json.dumps(receipt, sort_keys=True, separators=(',', ':'))`:
object keys in code-point sort order at every nesting level, `,` between
entries, `:` between a key and its value, no spaces. -/
def dumps : JVal → String
  | .null => "null"
  | .bool true => "true"
  | .bool false => "false"
  | .num q => numDumps q
  | .nf .nan => "NaN"
  | .nf .pinf => "Infinity"
  | .nf .ninf => "-Infinity"
  | .str s => strDumps s
  | .arr xs => "[" ++ joinWith "," (dumpsL xs) ++ "]"
  | .obj kvs =>
    "\x7b" ++ joinWith ","
      ((sortLt pairKeyLtB (dumpsP kvs)).map (fun kv => strDumps kv.1 ++ ":" ++ kv.2)) ++ "\x7d"
def dumpsL : List JVal → List String
  | [] => []
  | x :: xs => dumps x :: dumpsL xs
def dumpsP : List (String × JVal) → List (String × String)
  | [] => []
  | (k, v) :: rest => (k, dumps v) :: dumpsP rest
end

/-- UTF-8 encoding of one character. -/
def utf8Char (c : Char) : List Nat :=
  if c.toNat < 128 then [c.toNat]
  else if c.toNat < 2048 then [192 + c.toNat / 64, 128 + c.toNat % 64]
  else if c.toNat < 65536 then
    [224 + c.toNat / 4096, 128 + (c.toNat / 64) % 64, 128 + c.toNat % 64]
  else
    [240 + c.toNat / 262144, 128 + (c.toNat / 4096) % 64,
     128 + (c.toNat / 64) % 64, 128 + c.toNat % 64]

/-- Python `s.encode('utf-8')` as a byte list. -/
def utf8Bytes (s : String) : List Nat := (s.data.map utf8Char).flatten

def M32 : Nat := 4294967296

def mask32 (x : Nat) : Nat := x % M32

def rotr32 (n x : Nat) : Nat := mask32 ((x >>> n) ||| (x <<< (32 - n)))

def shaCh (e f g : Nat) : Nat := (e &&& f) ^^^ ((e ^^^ 4294967295) &&& g)

def shaMaj (a b c : Nat) : Nat := (a &&& b) ^^^ (a &&& c) ^^^ (b &&& c)

def bigSig0 (x : Nat) : Nat := rotr32 2 x ^^^ rotr32 13 x ^^^ rotr32 22 x

def bigSig1 (x : Nat) : Nat := rotr32 6 x ^^^ rotr32 11 x ^^^ rotr32 25 x

def smallSig0 (x : Nat) : Nat := rotr32 7 x ^^^ rotr32 18 x ^^^ (x >>> 3)

def smallSig1 (x : Nat) : Nat := rotr32 17 x ^^^ rotr32 19 x ^^^ (x >>> 10)

def be8 (n : Nat) : List Nat :=
  [(n >>> 56) % 256, (n >>> 48) % 256, (n >>> 40) % 256, (n >>> 32) % 256,
   (n >>> 24) % 256, (n >>> 16) % 256, (n >>> 8) % 256, n % 256]

/-- SHA-256 padding: `0x80`, zeros to 56 mod 64, 64-bit big-endian bit length. -/
def padMsg (msg : List Nat) : List Nat :=
  msg ++ [128] ++ List.replicate ((120 - ((msg.length + 1) % 64)) % 64) 0 ++
    be8 (8 * msg.length)

def bytesToWords : List Nat → List Nat
  | a :: b :: c :: d :: rest => (a * 16777216 + b * 65536 + c * 256 + d) :: bytesToWords rest
  | _ => []

def blocksOf : Nat → List Nat → List (List Nat)
  | 0, _ => []
  | _ + 1, [] => []
  | fuel + 1, l => l.take 64 :: blocksOf fuel (l.drop 64)

/-- Message schedule: the 16 block words extended to 64. -/
def buildW (w16 : List Nat) : List Nat :=
  (List.range 64).foldl (fun acc i =>
    if i < 16 then acc ++ [w16.getD i 0]
    else acc ++ [mask32 (acc.getD (i - 16) 0 + smallSig0 (acc.getD (i - 15) 0) +
                         acc.getD (i - 7) 0 + smallSig1 (acc.getD (i - 2) 0))]) []

structure Hash8 where
  a : Nat
  b : Nat
  c : Nat
  d : Nat
  e : Nat
  f : Nat
  g : Nat
  h : Nat
deriving DecidableEq

def shaK : List Nat :=
  [1116352408, 1899447441, 3049323471, 3921009573, 961987163, 1508970993,
   2453635748, 2870763221, 3624381080, 310598401, 607225278, 1426881987,
   1925078388, 2162078206, 2614888103, 3248222580, 3835390401, 4022224774,
   264347078, 604807628, 770255983, 1249150122, 1555081692, 1996064986,
   2554220882, 2821834349, 2952996808, 3210313671, 3336571891, 3584528711,
   113926993, 338241895, 666307205, 773529912, 1294757372, 1396182291,
   1695183700, 1986661051, 2177026350, 2456956037, 2730485921, 2820302411,
   3259730800, 3345764771, 3516065817, 3600352804, 4094571909, 275423344,
   430227734, 506948616, 659060556, 883997877, 958139571, 1322822218,
   1537002063, 1747873779, 1955562222, 2024104815, 2227730452, 2361852424,
   2428436474, 2756734187, 3204031479, 3329325298]

def shaH0 : Hash8 :=
  ⟨1779033703, 3144134277, 1013904242, 2773480762, 1359893119, 2600822924, 528734635, 1541459225⟩

def shaRound (st : Hash8) (kw : Nat × Nat) : Hash8 :=
  let t1 := mask32 (st.h + bigSig1 st.e + shaCh st.e st.f st.g + kw.1 + kw.2)
  let t2 := mask32 (bigSig0 st.a + shaMaj st.a st.b st.c)
  ⟨mask32 (t1 + t2), st.a, st.b, st.c, mask32 (st.d + t1), st.e, st.f, st.g⟩

def compressBlock (hv : Hash8) (block : List Nat) : Hash8 :=
  let st := ((shaK.zip (buildW (bytesToWords block))).foldl shaRound hv)
  ⟨mask32 (hv.a + st.a), mask32 (hv.b + st.b), mask32 (hv.c + st.c), mask32 (hv.d + st.d),
   mask32 (hv.e + st.e), mask32 (hv.f + st.f), mask32 (hv.g + st.g), mask32 (hv.h + st.h)⟩

def sha256Words (msg : List Nat) : Hash8 :=
  (blocksOf (padMsg msg).length (padMsg msg)).foldl compressBlock shaH0

def wordBytes (w : Nat) : List Nat := [(w >>> 24) % 256, (w >>> 16) % 256, (w >>> 8) % 256, w % 256]

def digestBytes (hv : Hash8) : List Nat :=
  wordBytes hv.a ++ wordBytes hv.b ++ wordBytes hv.c ++ wordBytes hv.d ++
    wordBytes hv.e ++ wordBytes hv.f ++ wordBytes hv.g ++ wordBytes hv.h

def byteHex (b : Nat) : String := String.mk [hexLow (b / 16), hexLow b]

/-- Python `hashlib.sha256(bytes).hexdigest()`. -/
def sha256hex (msg : List Nat) : String := concatAll ((digestBytes (sha256Words msg)).map byteHex)

/-- `compute_fingerprint` from `backend/routes/receipts.py`. -/
def compute_fingerprint (receipt : JVal) : String :=
  sha256hex (utf8Bytes (dumps receipt))

def isDigitChar (c : Char) : Bool := decide (48 ≤ c.toNat) && decide (c.toNat ≤ 57)

def allDigits (l : List Char) : Bool := l.all isDigitChar

def digitsVal (l : List Char) : Nat := l.foldl (fun acc c => acc * 10 + (c.toNat - 48)) 0

/-- The Unicode whitespace stripped by `str.strip()` / `float(str)`
(`Py_UNICODE_ISSPACE`): ASCII control whitespace, the space, NEL, NBSP,
Ogham space, the en/em spaces, line and paragraph separators, narrow
no-break space, mathematical space and ideographic space. -/
def isPySpace (c : Char) : Bool :=
  (9 ≤ c.toNat && c.toNat ≤ 13) || (28 ≤ c.toNat && c.toNat ≤ 31) ||
  c.toNat == 32 || c.toNat == 133 || c.toNat == 160 || c.toNat == 5760 ||
  (8192 ≤ c.toNat && c.toNat ≤ 8202) || c.toNat == 8232 || c.toNat == 8233 ||
  c.toNat == 8239 || c.toNat == 8287 || c.toNat == 12288

def trimChars (l : List Char) : List Char :=
  ((l.dropWhile isPySpace).reverse.dropWhile isPySpace).reverse

def splitOnChar (c : Char) : List Char → List (List Char)
  | [] => [[]]
  | x :: xs =>
    if x = c then [] :: splitOnChar c xs
    else
      match splitOnChar c xs with
      | [] => [[x]]
      | seg :: rest => (x :: seg) :: rest

def parseSign : List Char → (Bool × List Char)
  | '-' :: rest => (true, rest)
  | '+' :: rest => (false, rest)
  | l => (false, l)

/-- Mantissa of a float literal: digits with at most one dot, at least one
digit overall; yields the digits' value and the number of fraction digits. -/
def parseMantissa (l : List Char) : Option (Nat × Nat) :=
  match splitOnChar '.' l with
  | [ip] => if ip ≠ [] ∧ allDigits ip then some (digitsVal ip, 0) else none
  | [ip, fp] =>
    if (ip ≠ [] ∨ fp ≠ []) ∧ allDigits ip ∧ allDigits fp then
      some (digitsVal (ip ++ fp), fp.length)
    else none
  | _ => none

/-- The finite-literal grammar of Python `float(string)` after underscore
removal: optional sign, decimal mantissa, optional exponent. -/
def parseFinChars (l : List Char) : Option PQ :=
  match splitOnChar 'e' (l.map (fun c => if c = 'E' then 'e' else c)) with
  | [m] =>
    let sm := parseSign m
    (parseMantissa sm.2).map (fun v =>
      ⟨(if sm.1 then -(v.1 : Int) else (v.1 : Int)), 10 ^ v.2⟩)
  | [m, ex] =>
    let sm := parseSign m
    let se := parseSign ex
    match parseMantissa sm.2 with
    | none => none
    | some v =>
      if se.2 ≠ [] ∧ allDigits se.2 then
        let mn : Int := if sm.1 then -(v.1 : Int) else (v.1 : Int)
        let e := digitsVal se.2
        some (if se.1 then ⟨mn, 10 ^ v.2 * 10 ^ e⟩ else ⟨mn * ((10 ^ e : Nat) : Int), 10 ^ v.2⟩)
      else none
  | _ => none

def lowerAscii (c : Char) : Char :=
  if 65 ≤ c.toNat ∧ c.toNat ≤ 90 then Char.ofNat (c.toNat + 32) else c

/-- The special spellings accepted by `float()`: a case-insensitive, optionally
signed `inf`, `infinity` or `nan` (the sign of a `nan` is dropped). -/
def specialFloat? (l : List Char) : Option FVal :=
  let sgn := parseSign l
  let low := sgn.2.map lowerAscii
  if low = "inf".data ∨ low = "infinity".data then
    some (.nf (if sgn.1 then .ninf else .pinf))
  else if low = "nan".data then some (.nf .nan)
  else none

/-- `float()` accepts an underscore only between two digits. -/
def undScan : Option Char → List Char → Bool
  | _, [] => true
  | prev, c :: rest =>
    if c = '_' then
      (match prev with
       | some p => isDigitChar p
       | none => false) &&
      (match rest with
       | d :: _ => isDigitChar d
       | [] => false) &&
      undScan (some c) rest
    else undScan (some c) rest

def underscoresOkB (l : List Char) : Bool := undScan none l

def stripUnd (l : List Char) : List Char := l.filter (fun c => c ≠ '_')

/-- Python `float(string)` on the stripped character list: the signed special
values `inf`/`infinity`/`nan`, or a finite literal with well-placed digit
underscores. -/
def parseFloatChars (l : List Char) : Option FVal :=
  match specialFloat? l with
  | some v => some v
  | none =>
    if underscoresOkB l then (parseFinChars (stripUnd l)).map FVal.fin else none

def parseFloatStr (s : String) : Option FVal := parseFloatChars (trimChars s.data)

/-- Python `float(x)` on a JSON value: numbers (finite or not) and booleans
coerce, strings are parsed, anything else raises. -/
def pyFloat? : JVal → Option FVal
  | .num q => some (.fin q)
  | .bool b => some (.fin (boolPQ b))
  | .nf k => some (.nf k)
  | .str s => parseFloatStr s
  | _ => none

/-- Strings over ASCII: on these (and on all non-string values) the float
model is exact; outside them `float()` additionally reads Unicode decimal
digits, which are beyond this model. -/
def asciiOkB : JVal → Bool
  | .str s => s.data.all (fun c => c.toNat < 128)
  | _ => true

/-- The robust price conversion of `update_item_price`: on a string, commas
are first replaced by dots. -/
def priceFloat? (v : JVal) : Option FVal :=
  match v with
  | .str s => parseFloatStr (String.mk (s.data.map (fun c => if c = ',' then '.' else c)))
  | other => pyFloat? other

def daysInMonth (y m : Nat) : Nat :=
  if m = 2 then (if y % 4 = 0 ∧ (y % 100 ≠ 0 ∨ y % 400 = 0) then 29 else 28)
  else if m = 4 ∨ m = 6 ∨ m = 9 ∨ m = 11 then 30 else 31

/-- Python `datetime.strptime(s, "%Y-%m-%d").date()`: three dash-separated
digit groups (`%Y` demands exactly four digits, `%m` and `%d` one or two),
forming a valid calendar date. -/
def parseDate (s : String) : Option PyDate :=
  match splitOnChar '-' s.data with
  | [ys, ms, ds] =>
    if ys ≠ [] ∧ ys.length = 4 ∧ allDigits ys ∧ ms ≠ [] ∧ ms.length ≤ 2 ∧ allDigits ms ∧
        ds ≠ [] ∧ ds.length ≤ 2 ∧ allDigits ds then
      let y := digitsVal ys
      let m := digitsVal ms
      let d := digitsVal ds
      if 1 ≤ y ∧ 1 ≤ m ∧ m ≤ 12 ∧ 1 ≤ d ∧ d ≤ daysInMonth y m then some ⟨y, m, d⟩ else none
    else none
  | _ => none


def isNullB : JVal → Bool
  | .null => true
  | _ => false

/-- Python `v == "lit"` for a string literal: content equality on strings,
`False` on any other type. -/
def strEqB (v : JVal) (lit : String) : Bool :=
  match v with
  | .str t => t == lit
  | _ => false

/-- The columns of the `Receipt` model relevant to the modelled routes, plus
the generated primary key.  `items` holds the raw submitted item list. -/
structure StoredReceipt where
  user_id : Nat
  store_category : JVal
  store_name : JVal
  date : Option PyDate
  total : JVal
  tax_amount : JVal
  total_discount : JVal
  items : JVal
  fingerprint : String
  id : Nat

structure UserRec where
  id : Nat
  plan : String

/-- Outcome of `POST /api/receipts` (`add_receipt`). -/
inductive AddResult where
  | emptyBody
  | quotaExceeded (limit : Nat)
  | internalError
  | duplicate
  | validationError (missing : String)
  | created (r : StoredReceipt)

def BASIC_MONTHLY_LIMIT : Nat := 8

def monthStart (t : PyDate) : PyDate := ⟨t.year, t.month, 1⟩

def nextMonthStart (t : PyDate) : PyDate :=
  if t.month = 12 then ⟨t.year + 1, 1, 1⟩ else ⟨t.year, t.month + 1, 1⟩

def inCurrentMonthB (t d : PyDate) : Bool := dateLeB (monthStart t) d && dateLtB d (nextMonthStart t)

/-- The quota query: stored receipts of the user whose date lies in the
calendar month of `today` (`date >= first_day` and `date < next_month`). -/
def monthCount (st : List StoredReceipt) (uid : Nat) (today : PyDate) : Nat :=
  (st.filter (fun r => uid == r.user_id &&
    (match r.date with
     | some d => inCurrentMonthB today d
     | none => false))).length

def hasDupB (st : List StoredReceipt) (uid : Nat) (fp : String) : Bool :=
  st.any (fun r => uid == r.user_id && fp == r.fingerprint)

/-- `add_receipt` from `backend/routes/receipts.py`, as a function of the
stored receipts, the resolved user, the parsed JSON body and today's date:
empty-body check, basic-plan calendar-month quota check, canonicalize +
fingerprint, per-user duplicate check, required-field validation
(`date`, `total`), date parsing, then insertion. -/
def add_receipt (st : List StoredReceipt) (u : UserRec) (data : JVal) (today : PyDate) :
    AddResult × List StoredReceipt :=
  if truthyB data = false then (.emptyBody, st)
  else if u.plan = "basic" ∧ BASIC_MONTHLY_LIMIT ≤ monthCount st u.id today then
    (.quotaExceeded BASIC_MONTHLY_LIMIT, st)
  else
    match canonicalize_receipt data with
    | .error _ => (.internalError, st)
    | .ok canon =>
      if hasDupB st u.id (compute_fingerprint canon) then (.duplicate, st)
      else if isNullB (jget data "date") then (.validationError "date", st)
      else if isNullB (jget data "total") then (.validationError "total", st)
      else
        match jget data "date" with
        | .str s =>
          match parseDate s with
          | none => (.internalError, st)
          | some d =>
            let r : StoredReceipt :=
              ⟨u.id, jget data "store_category", jget data "store_name", some d,
               jget data "total", jget data "tax_amount", jget data "total_discount",
               jget data "items", compute_fingerprint canon, st.length⟩
            (.created r, st ++ [r])
        | _ => (.internalError, st)

/-- Outcome of the two PATCH edit routes. -/
inductive EditResult where
  | badRequest (msg : String)
  | internalError
  | success
deriving DecidableEq

/-- Python `len(x)` for the values that support it. -/
def lenOfJ? : JVal → Option Nat
  | .str s => some s.data.length
  | .arr l => some l.length
  | .obj l => some l.length
  | _ => none

/-- A value usable as a list index: an integral number (JSON integers) or a
boolean; fractional values or other types make the subscript raise. -/
def exactNat? (q : PQ) : Option Nat :=
  if q.d ≠ 0 ∧ q.n % (q.d : Int) = 0 ∧ 0 ≤ q.n then some ((q.n / (q.d : Int)).toNat) else none

/-- Resolution of `receipt.items` and `item_index` shared by both edit routes:
`if not receipt.items or not (0 <= item_index < len(receipt.items)): 400`.
The chained comparison evaluates `0 <= item_index` first (raising on an
index incomparable to integers, evaluating to `False` on `nan` or `-inf`)
and only then `len(receipt.items)` (raising on a truthy `items` without
`len`); a raise there or at the subscript surfaces as 500. -/
inductive IdxRes where
  | bad
  | err
  | okIdx (its : List JVal) (i : Nat)

def resolveIndex (items itemIndexJ : JVal) : IdxRes :=
  if truthyB items = false then .bad
  else
    match itemIndexJ with
    | .nf k =>
      if k == NF.pinf then
        match lenOfJ? items with
        | none => .err
        | some _ => .bad
      else .bad
    | _ =>
      match toPQ? itemIndexJ with
      | none => .err
      | some qi =>
        if pqLeB pqZero qi = false then .bad
        else
          match lenOfJ? items with
          | none => .err
          | some len =>
            if pqLtB qi ⟨(len : Int), 1⟩ = false then .bad
            else
              match items, exactNat? qi with
              | .arr its, some i => .okIdx its i
              | _, _ => .err

/-- The recomputation `receipt.total = sum(float(i.get('total', 0)) if
i.get('total') is not None else 0 for i in receipt.items)`: a missing or
`None` item total counts as zero, any other value goes through `float(...)`
(raising on failure), and a non-dict item makes `i.get` raise. -/
def totalCoerce? : JVal → Option FVal
  | .obj fs =>
    match jlookup fs "total" with
    | none => some (.fin pqZero)
    | some .null => some (.fin pqZero)
    | some v => pyFloat? v
  | _ => none

def sumTotals (its : List JVal) : Option FVal := (its.mapM totalCoerce?).map fvSum

/-- Shared tail of the edit routes: store the updated item, recompute the
receipt total (500 when the sum raises), commit. -/
def finishItem (r : StoredReceipt) (its : List JVal) (i : Nat)
    (fs2 : List (String × JVal)) : EditResult × StoredReceipt :=
  let its2 := its.set i (.obj fs2)
  match sumTotals its2 with
  | none => (.internalError, r)
  | some tot => (.success, { r with items := .arr its2, total := fvalJ tot })

/-- `quantity = float(item.get('quantity', 1))` with `quantity = 1` on any
conversion failure: the effective quantity used by `update_item_price`. -/
def qtyOf (fs : List (String × JVal)) : FVal :=
  match jlookup fs "quantity" with
  | none => .fin pqOne
  | some v => (pyFloat? v).getD (.fin pqOne)

/-- `update_item_price` from `backend/routes/receipts.py`: missing-parameter
check, robust float conversion of `new_price` (no sign restriction), item
lookup, `item['price'] = new_price; item['total'] = new_price * quantity`
with `quantity = float(item.get('quantity', 1))` falling back to `1` on any
failure, then total recomputation. -/
def update_item_price (r : StoredReceipt) (itemIndexJ newPriceJ : JVal) :
    EditResult × StoredReceipt :=
  if isNullB itemIndexJ || isNullB newPriceJ then
    (.badRequest "Missing item_index or new_price", r)
  else
    match priceFloat? newPriceJ with
    | none => (.badRequest "Invalid price format", r)
    | some p =>
      match resolveIndex r.items itemIndexJ with
      | .bad => (.badRequest "Invalid item index", r)
      | .err => (.internalError, r)
      | .okIdx its i =>
        match its.getD i .null with
        | .obj fs =>
          finishItem r its i
            (jset (jset fs "price" (fvalJ p)) "total" (fvalJ (fvMul p (qtyOf fs))))
        | _ => (.internalError, r)

/-- Python `value.strip()` after an `isinstance(value, str)` check, demanding
a nonempty result. -/
def jstrTrim? : JVal → Option String
  | .str s => (if String.mk (trimChars s.data) = "" then none else some (String.mk (trimChars s.data)))
  | _ => none

/-- `price = float(item.get('price', 0)) if item.get('price') is not None
else 0`: zero for a missing or `None` price, raising on an unparsable one
(caught by the same handler as the quantity conversion). -/
def priceOf? (fs : List (String × JVal)) : Option FVal :=
  match jlookup fs "price" with
  | none => some (.fin pqZero)
  | some .null => some (.fin pqZero)
  | some v => pyFloat? v

/-- `update_receipt_field` from `backend/routes/receipts.py`: the scalar
branch (`store_name` / `date` / `store_category`), the item branch
(`name` / `quantity` / `category`) with the quantity-positivity check and the
per-item total recomputation, and the fallback 400. -/
def update_receipt_field (r : StoredReceipt) (fieldJ valueJ itemIndexJ itemFieldJ itemValueJ : JVal) :
    EditResult × StoredReceipt :=
  if strEqB fieldJ "store_name" || strEqB fieldJ "date" || strEqB fieldJ "store_category" then
    if strEqB fieldJ "store_name" then
      match jstrTrim? valueJ with
      | none => (.badRequest "Invalid store name", r)
      | some t => (.success, { r with store_name := .str t })
    else if strEqB fieldJ "date" then
      match valueJ with
      | .str s =>
        match parseDate (String.mk ((splitOnChar 'T' s.data).headD [])) with
        | none => (.badRequest "Invalid date format", r)
        | some d => (.success, { r with date := some d })
      | _ => (.badRequest "Invalid date format", r)
    else
      match jstrTrim? valueJ with
      | none => (.badRequest "Invalid store category", r)
      | some t => (.success, { r with store_category := .str t })
  else if !isNullB itemIndexJ &&
      (strEqB itemFieldJ "name" || strEqB itemFieldJ "quantity" || strEqB itemFieldJ "category") then
    match resolveIndex r.items itemIndexJ with
    | .bad => (.badRequest "Invalid item index", r)
    | .err => (.internalError, r)
    | .okIdx its i =>
      if strEqB itemFieldJ "name" then
        match jstrTrim? itemValueJ with
        | none => (.badRequest "Invalid item name", r)
        | some t =>
          match its.getD i .null with
          | .obj fs => finishItem r its i (jset fs "name" (.str t))
          | _ => .internalError |> (·, r)
      else if strEqB itemFieldJ "quantity" then
        match pyFloat? itemValueJ with
        | none => (.badRequest "Invalid quantity", r)
        | some qv =>
          if fvLeZeroB qv then (.badRequest "Quantity must be positive", r)
          else
            match its.getD i .null with
            | .obj fs =>
              match priceOf? fs with
              | none => (.badRequest "Invalid quantity", r)
              | some pr =>
                finishItem r its i
                  (jset (jset fs "quantity" (fvalJ qv)) "total" (fvalJ (fvMul pr qv)))
            | _ => (.badRequest "Invalid quantity", r)
      else
        match jstrTrim? itemValueJ with
        | none => (.badRequest "Invalid category", r)
        | some t =>
          match its.getD i .null with
          | .obj fs => finishItem r its i (jset fs "category" (.str t))
          | _ => .internalError |> (·, r)
  else (.badRequest "Invalid update request", r)

def nameKeyJ (x : JVal) : JVal := jvOr (jget x "name") (.str "")

def priceKeyJ (x : JVal) : JVal := jvOr (jget x "price") (.num pqZero)

/-- Items whose sort key has a string name component and a numeric (or
boolean) price component with a positive denominator: on such items every
comparison performed by the sort is defined. -/
def goodKeyB (x : JVal) : Bool :=
  (match nameKeyJ x with
   | .str _ => true
   | _ => false) &&
  (match priceKeyJ x with
   | .num q => decide (0 < q.d)
   | .bool _ => true
   | _ => false)

def keyName (x : JVal) : List Nat :=
  match nameKeyJ x with
  | .str s => strCodes s
  | _ => []

def keyPrice (x : JVal) : PQ :=
  match priceKeyJ x with
  | .num q => q
  | .bool b => boolPQ b
  | _ => pqZero

/-- Pure boolean rendering of the sort-key comparison on good items:
lexicographic on (name code points, price value). -/
def itemLtB (x y : JVal) : Bool :=
  codesLtB (keyName x) (keyName y) ||
    (keyName x == keyName y && pqLtB (keyPrice x) (keyPrice y))

/-- Sort-key equivalence: equal names and equal price values. -/
def itemEqvB (x y : JVal) : Bool :=
  keyName x == keyName y && pqEqB (keyPrice x) (keyPrice y)

/-- A receipt payload with the seven scalar fields and a given item list; two
payloads that differ only in the order of their item list are two values
`mkPayload sc sn dt tt cur tax td l₁` and `mkPayload sc sn dt tt cur tax td l₂`
with `l₁` a permutation of `l₂`. -/
def mkPayload (sc sn dt tt cur tax td : JVal) (items : List JVal) : JVal :=
  .obj [("store_category", sc), ("store_name", sn), ("date", dt), ("total", tt),
        ("currency", cur), ("tax_amount", tax), ("total_discount", td),
        ("items", .arr items)]

/-- The canonical object built by `canonicalize_receipt` from the scalar
fields and the already sorted canonical item list. -/
def mkCanon (sc sn dt tt cur tax td : JVal) (sorted : List JVal) : JVal :=
  .obj [("store_category", sc), ("store_name", sn), ("date", dt),
        ("total", tt), ("currency", cur), ("tax_amount", tax),
        ("total_discount", td), ("items", .arr sorted)]

def okJ : Except Unit JVal → JVal
  | .ok v => v
  | .error _ => .null

def hexDigitsList : List Char := "0123456789abcdef".data


def cexTiedA : JVal :=
  .obj [("name", .str "Milk"), ("price", .num ⟨5, 2⟩), ("total", .num ⟨3, 1⟩)]

def cexTiedB : JVal :=
  .obj [("name", .str "Milk"), ("price", .num ⟨5, 2⟩), ("total", .num ⟨99, 1⟩)]

def cexR1 : JVal :=
  mkPayload .null .null (.str "2024-01-05") (.num ⟨25, 2⟩) .null .null .null [cexTiedA, cexTiedB]

def cexR2 : JVal :=
  mkPayload .null .null (.str "2024-01-05") (.num ⟨25, 2⟩) .null .null .null [cexTiedB, cexTiedA]

def witBread : JVal :=
  .obj [("name", .str "Bread"), ("price", .num ⟨3, 1⟩), ("quantity", .num ⟨1, 1⟩), ("total", .num ⟨3, 1⟩)]

def witMilk : JVal :=
  .obj [("name", .str "Milk"), ("price", .num ⟨5, 2⟩), ("quantity", .num ⟨1, 1⟩), ("total", .num ⟨5, 2⟩)]

def c8Bad : JVal :=
  .obj [("items", .arr [.obj [("price", .str "x")], .obj [("price", .num ⟨5, 1⟩)]])]

def c8GoodKvs : List (String × JVal) := [("total", .num ⟨7, 1⟩), ("items", .arr [witBread])]

def c8NullKvs : List (String × JVal) := [("total", .num ⟨7, 1⟩), ("items", .null)]

def pairJLtB (a b : String × JVal) : Bool := strLtB a.1 b.1

def dumpPair (kv : String × JVal) : String × String := (kv.1, dumps kv.2)

def uBasic : UserRec := ⟨1, "basic"⟩

def uPro : UserRec := ⟨2, "pro"⟩

def mkStored (uid : Nat) (d : PyDate) (fp : String) (idn : Nat) : StoredReceipt :=
  ⟨uid, .null, .null, some d, .null, .null, .null, .null, fp, idn⟩

def stJan (n : Nat) : List StoredReceipt :=
  (List.range n).map (fun i => mkStored 1 ⟨2024, 1, i % 28 + 1⟩ (Nat.repr i) i)

def tJan : PyDate := ⟨2024, 1, 15⟩

def payload0 : JVal := .obj [("date", .str "2024-01-10"), ("total", .num ⟨5, 1⟩)]

def payloadNoDate : JVal := .obj [("store_name", .str "S")]

def stWithDup : List StoredReceipt :=
  [⟨1, .null, .null, some ⟨2024, 1, 2⟩, .null, .null, .null, .null,
    compute_fingerprint (okJ (canonicalize_receipt payloadNoDate)), 0⟩]

def isCreatedB : AddResult → Bool
  | .created _ => true
  | _ => false

/-- The storage-layer uniqueness invariant of the `Receipt` table: no two
stored receipts share the pair (user, fingerprint). -/
def UniqueFP (st : List StoredReceipt) : Prop :=
  List.Pairwise (fun a b => ¬ (a.user_id = b.user_id ∧ a.fingerprint = b.fingerprint)) st

def c3r0 : StoredReceipt :=
  ⟨1, .null, .null, some ⟨2024, 1, 10⟩, .num ⟨5, 1⟩, .null, .null, .null,
    compute_fingerprint (okJ (canonicalize_receipt payload0)), 0⟩

def c3st1 : List StoredReceipt := [c3r0]

def jnumOf : JVal → PQ
  | .num q => q
  | _ => ⟨0, 0⟩

def rxFieldsA : List (String × JVal) :=
  [("name", .str "A"), ("quantity", .num ⟨2, 1⟩), ("price", .num ⟨3, 1⟩), ("total", .num ⟨6, 1⟩)]

def rxItemA : JVal := .obj rxFieldsA

def rxItemB : JVal :=
  .obj [("name", .str "B"), ("quantity", .num ⟨1, 1⟩), ("price", .num ⟨4, 1⟩), ("total", .num ⟨4, 1⟩)]

def rX : StoredReceipt :=
  ⟨1, .null, .null, some ⟨2024, 1, 5⟩, .num ⟨6, 1⟩, .null, .null,
   .arr [rxItemA, rxItemB], "fpX", 0⟩

/-- A stored receipt whose only item carries the unparsable quantity
`"abc"` next to a numeric price. -/
def cexQfs : List (String × JVal) :=
  [("name", .str "A"), ("quantity", .str "abc"), ("price", .num ⟨3, 1⟩), ("total", .num ⟨6, 1⟩)]

def cexQitem : JVal := .obj cexQfs

def cexQR : StoredReceipt :=
  ⟨1, .null, .null, some ⟨2024, 1, 5⟩, .num ⟨6, 1⟩, .null, .null, .arr [cexQitem], "fpQ", 0⟩

/-- The item at index `i` of a stored receipt's item list. -/
def itemAt (r : StoredReceipt) (i : Nat) : JVal :=
  match r.items with
  | .arr l => l.getD i .null
  | _ => .null

theorem insertLt_perm {α : Type} (lt : α → α → Bool) (x : α) :
    ∀ l : List α, List.Perm (insertLt lt x l) (x :: l) := by
  intro l
  induction l with
  | nil => exact List.Perm.refl _
  | cons y ys ih =>
    by_cases h : lt y x = true
    · simp only [insertLt, h, if_true]
      exact (ih.cons y).trans (List.Perm.swap x y ys)
    · have h' : lt y x = false := by
        cases hv : lt y x with
        | false => rfl
        | true => exact absurd hv h
      simp [insertLt, h']

theorem sortLt_perm {α : Type} (lt : α → α → Bool) :
    ∀ l : List α, List.Perm (sortLt lt l) l := by
  intro l
  induction l with
  | nil => exact List.Perm.refl _
  | cons x xs ih => exact (insertLt_perm lt x (sortLt lt xs)).trans (ih.cons x)

theorem mem_sortLt {α : Type} {lt : α → α → Bool} {l : List α} {a : α} :
    a ∈ sortLt lt l ↔ a ∈ l := (sortLt_perm lt l).mem_iff

theorem insertLt_pairwise {α : Type} {lt : α → α → Bool} {good : α → Bool}
    (Hasym : ∀ a b, good a = true → good b = true → lt a b = true → lt b a = false)
    (Htrans : ∀ a b c, good a = true → good b = true → good c = true →
      lt b a = false → lt c b = false → lt c a = false)
    (x : α) (hx : good x = true) :
    ∀ l : List α, (∀ a ∈ l, good a = true) →
      l.Pairwise (fun a b => lt b a = false) →
      (insertLt lt x l).Pairwise (fun a b => lt b a = false) := by
  intro l
  induction l with
  | nil => intro _ _; simp [insertLt]
  | cons y ys ih =>
    intro hg hp
    rw [List.pairwise_cons] at hp
    by_cases h : lt y x = true
    · simp only [insertLt, h, if_true]
      rw [List.pairwise_cons]
      refine ⟨?_, ih (fun a ha => hg a (List.mem_cons_of_mem y ha)) hp.2⟩
      intro z hz
      rcases List.mem_cons.mp ((insertLt_perm lt x ys).mem_iff.mp hz) with rfl | hzys
      · exact Hasym y z (hg y (List.mem_cons_self y ys)) hx h
      · exact hp.1 z hzys
    · have h' : lt y x = false := by
        cases hyx : lt y x with
        | false => rfl
        | true => exact absurd hyx h
      simp only [insertLt, h', if_false, Bool.false_eq_true]
      rw [List.pairwise_cons]
      constructor
      · intro z hz
        rcases List.mem_cons.mp hz with rfl | hzys
        · exact h'
        · exact Htrans x y z hx (hg y (List.mem_cons_self y ys))
            (hg z (List.mem_cons_of_mem y hzys)) h' (hp.1 z hzys)
      · rw [List.pairwise_cons]; exact hp

theorem sortLt_pairwise {α : Type} {lt : α → α → Bool} {good : α → Bool}
    (Hasym : ∀ a b, good a = true → good b = true → lt a b = true → lt b a = false)
    (Htrans : ∀ a b c, good a = true → good b = true → good c = true →
      lt b a = false → lt c b = false → lt c a = false) :
    ∀ l : List α, (∀ a ∈ l, good a = true) →
      (sortLt lt l).Pairwise (fun a b => lt b a = false) := by
  intro l
  induction l with
  | nil => intro _; simp [sortLt]
  | cons x xs ih =>
    intro hg
    exact insertLt_pairwise Hasym Htrans x (hg x (List.mem_cons_self x xs))
      (sortLt lt xs)
      (fun a ha => hg a (List.mem_cons_of_mem x (mem_sortLt.mp ha)))
      (ih (fun a ha => hg a (List.mem_cons_of_mem x ha)))

theorem insertLt_filter {α : Type} {lt : α → α → Bool} (p : α → Bool) (x : α) :
    ∀ l : List α, (∀ y ∈ l, p y = true → p x = true → lt y x = false) →
      (insertLt lt x l).filter p = ((x :: l).filter p) := by
  intro l
  induction l with
  | nil => intro _; rfl
  | cons y ys ih =>
    intro hcomp
    by_cases h : lt y x = true
    · simp only [insertLt, h, if_true]
      by_cases hpx : p x = true
      · have hpy : p y = false := by
          cases hpy : p y with
          | false => rfl
          | true => rw [hcomp y (List.mem_cons_self y ys) hpy hpx] at h; exact absurd h (by simp)
        have ihh := ih (fun z hz => hcomp z (List.mem_cons_of_mem y hz))
        simp [List.filter_cons, hpy, hpx, ihh]
      · have hpx' : p x = false := by
          cases hv : p x with
          | false => rfl
          | true => exact absurd hv hpx
        have ihh := ih (fun z hz => hcomp z (List.mem_cons_of_mem y hz))
        simp only [List.filter_cons, hpx', ihh]
        cases hpy : p y <;> simp [List.filter_cons, hpx', hpy]
    · have h' : lt y x = false := by
        cases hv : lt y x with
        | false => rfl
        | true => exact absurd hv h
      simp only [insertLt, h', if_false, Bool.false_eq_true]

theorem sortLt_filter {α : Type} {lt : α → α → Bool} (p : α → Bool) :
    ∀ l : List α, (∀ a ∈ l, ∀ b ∈ l, p a = true → p b = true → lt a b = false) →
      (sortLt lt l).filter p = l.filter p := by
  intro l
  induction l with
  | nil => intro _; rfl
  | cons x xs ih =>
    intro hcomp
    have h1 : (insertLt lt x (sortLt lt xs)).filter p = ((x :: sortLt lt xs).filter p) := by
      refine insertLt_filter p x (sortLt lt xs) ?_
      intro y hy hpy hpx
      exact hcomp y (List.mem_cons_of_mem x (mem_sortLt.mp hy)) x (List.mem_cons_self x xs) hpy hpx
    have h2 : (sortLt lt xs).filter p = xs.filter p :=
      ih (fun a ha b hb => hcomp a (List.mem_cons_of_mem x ha) b (List.mem_cons_of_mem x hb))
    simp only [sortLt, h1, List.filter_cons, h2]

theorem pairwise_perm_eq {α : Type} {le : α → α → Prop} :
    ∀ {l₁ l₂ : List α}, List.Perm l₁ l₂ →
      (∀ a ∈ l₁, ∀ b ∈ l₁, le a b → le b a → a = b) →
      l₁.Pairwise le → l₂.Pairwise le → l₁ = l₂ := by
  intro l₁
  induction l₁ with
  | nil =>
    intro l₂ hper _ _ _
    exact (List.Perm.nil_eq hper).symm ▸ rfl
  | cons x xs ih =>
    intro l₂ hper hanti hp1 hp2
    cases l₂ with
    | nil => exact absurd hper.symm (by simp)
    | cons y ys =>
      have hx2 : x ∈ y :: ys := hper.mem_iff.mp (List.mem_cons_self x xs)
      have hy1 : y ∈ x :: xs := hper.mem_iff.mpr (List.mem_cons_self y ys)
      have hxy : x = y := by
        rcases List.mem_cons.mp hx2 with h | hxys
        · exact h
        rcases List.mem_cons.mp hy1 with h | hyxs
        · exact h.symm
        exact hanti x (List.mem_cons_self x xs) y hy1
          ((List.pairwise_cons.mp hp1).1 y hyxs) ((List.pairwise_cons.mp hp2).1 x hxys)
      subst hxy
      have hper' : List.Perm xs ys := (List.perm_cons x).mp hper
      have heq : xs = ys := by
        refine ih hper' ?_ (List.pairwise_cons.mp hp1).2 (List.pairwise_cons.mp hp2).2
        intro a ha b hb
        exact hanti a (List.mem_cons_of_mem x ha) b (List.mem_cons_of_mem x hb)
      rw [heq]

theorem insertE_eq {α : Type} {ltE : α → α → Except Unit Bool} {lt : α → α → Bool} (x : α) :
    ∀ l : List α, (∀ y ∈ l, ltE y x = .ok (lt y x)) →
      insertE ltE x l = .ok (insertLt lt x l) := by
  intro l
  induction l with
  | nil => intro _; rfl
  | cons y ys ih =>
    intro h
    have hy := h y (List.mem_cons_self y ys)
    have ihh := ih (fun z hz => h z (List.mem_cons_of_mem y hz))
    cases hb : lt y x with
    | true => simp [insertE, insertLt, hy, hb, ihh]
    | false => simp [insertE, insertLt, hy, hb]

theorem sortE_eq {α : Type} {ltE : α → α → Except Unit Bool} {lt : α → α → Bool} :
    ∀ l : List α, (∀ a ∈ l, ∀ b ∈ l, ltE a b = .ok (lt a b)) →
      sortE ltE l = .ok (sortLt lt l) := by
  intro l
  induction l with
  | nil => intro _; rfl
  | cons x xs ih =>
    intro h
    have ihh : sortE ltE xs = .ok (sortLt lt xs) :=
      ih (fun a ha b hb => h a (List.mem_cons_of_mem x ha) b (List.mem_cons_of_mem x hb))
    have hins : insertE ltE x (sortLt lt xs) = .ok (insertLt lt x (sortLt lt xs)) := by
      refine insertE_eq x (sortLt lt xs) ?_
      intro y hy
      exact h y (List.mem_cons_of_mem x (mem_sortLt.mp hy)) x (List.mem_cons_self x xs)
    simp [sortE, ihh, hins, sortLt]

theorem sortLt_of_pairwise {α : Type} {lt : α → α → Bool} :
    ∀ l : List α, l.Pairwise (fun a b => lt b a = false) → sortLt lt l = l := by
  intro l
  induction l with
  | nil => intro _; rfl
  | cons x xs ih =>
    intro hp
    rw [List.pairwise_cons] at hp
    have h1 : sortLt lt xs = xs := ih hp.2
    rw [sortLt, h1]
    cases xs with
    | nil => rfl
    | cons y ys => simp [insertLt, hp.1 y (List.mem_cons_self y ys)]

theorem codesLtB_irrefl : ∀ a : List Nat, codesLtB a a = false := by
  intro a
  induction a with
  | nil => rfl
  | cons x xs ih => simp [codesLtB, ih]

theorem codesLtB_asym : ∀ a b : List Nat, codesLtB a b = true → codesLtB b a = false := by
  intro a
  induction a with
  | nil => intro b h; cases b <;> rfl
  | cons x xs ih =>
    intro b h
    cases b with
    | nil => simp [codesLtB] at h
    | cons y ys =>
      simp only [codesLtB] at h ⊢
      by_cases h1 : x < y
      · have h2 : ¬ y < x := by omega
        simp [h1, h2]
      · by_cases h2 : y < x
        · simp [h1, h2] at h
        · simp only [h1, h2, if_false] at h ⊢
          exact ih ys h

theorem codesLtB_le_trans :
    ∀ a b c : List Nat, codesLtB b a = false → codesLtB c b = false → codesLtB c a = false := by
  intro a
  induction a with
  | nil => intro b c _ _; cases c <;> rfl
  | cons x xs ih =>
    intro b c h1 h2
    cases b with
    | nil => simp [codesLtB] at h1
    | cons y ys =>
      cases c with
      | nil => simp [codesLtB] at h2
      | cons z zs =>
        simp only [codesLtB] at h1 h2 ⊢
        by_cases hyx : y < x
        · simp [hyx] at h1
        · by_cases hzy : z < y
          · simp [hzy] at h2
          · by_cases hxy : x < y
            · have hxz : x < z := by omega
              have hzx : ¬ z < x := by omega
              simp [hzx, hxz]
            · by_cases hyz : y < z
              · have hzx : ¬ z < x := by omega
                have hxz : x < z := by omega
                simp [hzx, hxz]
              · have hzx : ¬ z < x := by omega
                have hxz : ¬ x < z := by omega
                simp only [hzx, hxz, if_false]
                simp only [hyx, hxy, if_false] at h1
                simp only [hzy, hyz, if_false] at h2
                exact ih ys zs h1 h2

theorem codesLtB_conn :
    ∀ a b : List Nat, codesLtB a b = false → codesLtB b a = false → a = b := by
  intro a
  induction a with
  | nil =>
    intro b h1 _
    cases b with
    | nil => rfl
    | cons y ys => simp [codesLtB] at h1
  | cons x xs ih =>
    intro b h1 h2
    cases b with
    | nil => simp [codesLtB] at h2
    | cons y ys =>
      simp only [codesLtB] at h1 h2
      by_cases hxy : x < y
      · simp [hxy] at h1
      · by_cases hyx : y < x
        · simp [hyx] at h2
        · have hxe : x = y := by omega
          subst hxe
          simp only [hxy, hyx, if_false] at h1 h2
          rw [ih ys h1 h2]

theorem pqLtB_asym {a b : PQ} (h : pqLtB a b = true) : pqLtB b a = false := by
  simp only [pqLtB, decide_eq_true_eq] at h
  simp only [pqLtB, decide_eq_false_iff_not]
  exact not_lt.mpr h.le

theorem pq_eq_not_lt {a b : PQ} (h : pqEqB a b = true) : pqLtB a b = false := by
  simp only [pqEqB, beq_iff_eq] at h
  simp only [pqLtB, decide_eq_false_iff_not]
  exact not_lt.mpr h.ge

theorem pq_conn {a b : PQ} (h1 : pqLtB a b = false) (h2 : pqLtB b a = false) :
    pqEqB a b = true := by
  simp only [pqLtB, decide_eq_false_iff_not, not_lt] at h1 h2
  simp only [pqEqB, beq_iff_eq]
  exact le_antisymm h2 h1

theorem pq_le_trans {a b c : PQ} (hb : 0 < b.d)
    (h1 : pqLtB b a = false) (h2 : pqLtB c b = false) : pqLtB c a = false := by
  simp only [pqLtB, decide_eq_false_iff_not, not_lt] at h1 h2 ⊢
  have hbd : (0 : Int) < (b.d : Int) := by exact_mod_cast hb
  have hcd : (0 : Int) ≤ (c.d : Int) := Int.natCast_nonneg c.d
  have had : (0 : Int) ≤ (a.d : Int) := Int.natCast_nonneg a.d
  have key : a.n * c.d * b.d ≤ c.n * a.d * b.d := by
    calc a.n * c.d * b.d = a.n * b.d * c.d := by ring
    _ ≤ b.n * a.d * c.d := mul_le_mul_of_nonneg_right h1 hcd
    _ = b.n * c.d * a.d := by ring
    _ ≤ c.n * b.d * a.d := mul_le_mul_of_nonneg_right h2 had
    _ = c.n * a.d * b.d := by ring
  exact le_of_mul_le_mul_right key hbd

theorem pqEqB_symm {a b : PQ} (h : pqEqB a b = true) : pqEqB b a = true := by
  simp only [pqEqB, beq_iff_eq] at h ⊢
  exact h.symm

theorem pqEqB_trans {a b c : PQ} (hb : 0 < b.d)
    (h1 : pqEqB a b = true) (h2 : pqEqB b c = true) : pqEqB a c = true := by
  simp only [pqEqB, beq_iff_eq] at h1 h2 ⊢
  have hbd : ((b.d : Int)) ≠ 0 := by
    have : (0 : Int) < (b.d : Int) := by exact_mod_cast hb
    omega
  have key : a.n * c.d * b.d = c.n * a.d * b.d := by
    calc a.n * c.d * b.d = (a.n * b.d) * c.d := by ring
    _ = (b.n * a.d) * c.d := by rw [h1]
    _ = (b.n * c.d) * a.d := by ring
    _ = (c.n * b.d) * a.d := by rw [h2]
    _ = c.n * a.d * b.d := by ring
  exact mul_right_cancel₀ hbd key

theorem goodKey_name {x : JVal} (h : goodKeyB x = true) :
    ∃ s, nameKeyJ x = .str s ∧ keyName x = strCodes s := by
  simp only [goodKeyB, Bool.and_eq_true] at h
  cases hv : nameKeyJ x with
  | str s => exact ⟨s, rfl, by simp [keyName, hv]⟩
  | null => rw [hv] at h; simp at h
  | bool b => rw [hv] at h; simp at h
  | num q => rw [hv] at h; simp at h
  | nf k => rw [hv] at h; simp at h
  | arr l => rw [hv] at h; simp at h
  | obj l => rw [hv] at h; simp at h

theorem goodKey_price {x : JVal} (h : goodKeyB x = true) :
    (∃ q, priceKeyJ x = .num q ∧ keyPrice x = q ∧ 0 < q.d) ∨
      (∃ b, priceKeyJ x = .bool b ∧ keyPrice x = boolPQ b) := by
  simp only [goodKeyB, Bool.and_eq_true] at h
  cases hv : priceKeyJ x with
  | num q =>
    refine .inl ⟨q, rfl, by simp [keyPrice, hv], ?_⟩
    have := h.2
    rw [hv] at this
    simpa using this
  | bool b => exact .inr ⟨b, rfl, by simp [keyPrice, hv]⟩
  | null => have h2 := h.2; rw [hv] at h2; simp at h2
  | nf k => have h2 := h.2; rw [hv] at h2; simp at h2
  | str s => have h2 := h.2; rw [hv] at h2; simp at h2
  | arr l => have h2 := h.2; rw [hv] at h2; simp at h2
  | obj l => have h2 := h.2; rw [hv] at h2; simp at h2

theorem goodKey_den {x : JVal} (h : goodKeyB x = true) : 0 < (keyPrice x).d := by
  rcases goodKey_price h with ⟨q, _, hk, hd⟩ | ⟨b, _, hk⟩
  · rw [hk]; exact hd
  · rw [hk]; cases b <;> simp [boolPQ, pqOne, pqZero]

theorem strCodes_inj {s t : String} (h : strCodes s = strCodes t) : s = t := by
  have hdata : s.data = t.data := by
    refine List.map_injective_iff.mpr ?_ h
    intro a b hab
    exact Char.ext (UInt32.ext hab)
  have hmk : String.mk s.data = String.mk t.data := by rw [hdata]
  exact hmk

theorem pyEq_price {x y : JVal} (hx : goodKeyB x = true) (hy : goodKeyB y = true) :
    pyEq (priceKeyJ x) (priceKeyJ y) = pqEqB (keyPrice x) (keyPrice y) := by
  rcases goodKey_price hx with ⟨q, hq, hk, _⟩ | ⟨b, hq, hk⟩ <;>
    rcases goodKey_price hy with ⟨q2, hq2, hk2, _⟩ | ⟨b2, hq2, hk2⟩ <;>
      rw [hq, hq2, hk, hk2] <;> rfl

theorem pyLt_price {x y : JVal} (hx : goodKeyB x = true) (hy : goodKeyB y = true) :
    pyLt (priceKeyJ x) (priceKeyJ y) = .ok (pqLtB (keyPrice x) (keyPrice y)) := by
  rcases goodKey_price hx with ⟨q, hq, hk, _⟩ | ⟨b, hq, hk⟩ <;>
    rcases goodKey_price hy with ⟨q2, hq2, hk2, _⟩ | ⟨b2, hq2, hk2⟩ <;>
      rw [hq, hq2, hk, hk2] <;> rfl

theorem itemLt_ok {x y : JVal} (hx : goodKeyB x = true) (hy : goodKeyB y = true) :
    itemLt x y = .ok (itemLtB x y) := by
  obtain ⟨sx, hnx, hknx⟩ := goodKey_name hx
  obtain ⟨sy, hny, hkny⟩ := goodKey_name hy
  have hpair : sortKeyPair x = (nameKeyJ x, priceKeyJ x) := rfl
  have hpairy : sortKeyPair y = (nameKeyJ y, priceKeyJ y) := rfl
  rw [itemLt, hpair, hpairy, tupLt]
  simp only [hnx, hny]
  by_cases hs : sx = sy
  · subst hs
    have hbeq : pyEq (JVal.str sx) (JVal.str sx) = true := by simp [pyEq]
    rw [if_pos hbeq]
    have hiff : itemLtB x y = pqLtB (keyPrice x) (keyPrice y) := by
      rw [itemLtB, hknx, hkny, codesLtB_irrefl]
      simp
    by_cases hpe : pqEqB (keyPrice x) (keyPrice y) = true
    · rw [pyEq_price hx hy, if_pos hpe, hiff, pq_eq_not_lt hpe]
    · have hpe' : pyEq (priceKeyJ x) (priceKeyJ y) = false := by
        rw [pyEq_price hx hy]
        cases hv : pqEqB (keyPrice x) (keyPrice y) with
        | false => rfl
        | true => exact absurd hv hpe
      rw [pyEq_price hx hy] at hpe'
      rw [if_neg (by rw [pyEq_price hx hy, hpe']; simp), pyLt_price hx hy, hiff]
  · have hbeq : pyEq (JVal.str sx) (JVal.str sy) = false := by
      simp [pyEq]
      exact hs
    rw [if_neg (by rw [hbeq]; simp)]
    have hcodes : (keyName x == keyName y) = false := by
      rw [hknx, hkny]
      cases hv : strCodes sx == strCodes sy with
      | false => rfl
      | true => exact absurd (strCodes_inj (by simpa using hv)) hs
    have : pyLt (JVal.str sx) (JVal.str sy) = .ok (strLtB sx sy) := rfl
    rw [this, itemLtB, hcodes, hknx, hkny]
    simp [strLtB]

theorem itemLtB_asym {x y : JVal} (h : itemLtB x y = true) : itemLtB y x = false := by
  simp only [itemLtB, Bool.or_eq_true, Bool.and_eq_true, beq_iff_eq] at h
  rcases h with h | ⟨he, hp⟩
  · have h1 : codesLtB (keyName y) (keyName x) = false := codesLtB_asym _ _ h
    have h2 : (keyName y == keyName x) = false := by
      cases hv : keyName y == keyName x with
      | false => rfl
      | true =>
        have : keyName y = keyName x := by simpa using hv
        rw [this, codesLtB_irrefl] at h
        exact absurd h (by simp)
    simp [itemLtB, h1, h2]
  · have h1 : codesLtB (keyName y) (keyName x) = false := by
      rw [he, codesLtB_irrefl]
    have h2 : pqLtB (keyPrice y) (keyPrice x) = false := pqLtB_asym hp
    simp [itemLtB, h1, h2]

theorem itemLtB_false_parts {x y : JVal} (h : itemLtB x y = false) :
    codesLtB (keyName x) (keyName y) = false ∧
      (keyName x = keyName y → pqLtB (keyPrice x) (keyPrice y) = false) := by
  simp only [itemLtB, Bool.or_eq_false_iff, Bool.and_eq_false_iff] at h
  refine ⟨h.1, ?_⟩
  intro he
  rcases h.2 with h2 | h2
  · rw [he] at h2; simp at h2
  · exact h2

theorem itemLtB_false_of_parts {x y : JVal}
    (h1 : codesLtB (keyName x) (keyName y) = false)
    (h2 : keyName x = keyName y → pqLtB (keyPrice x) (keyPrice y) = false) :
    itemLtB x y = false := by
  rw [itemLtB, h1]
  cases hv : keyName x == keyName y with
  | false => simp
  | true => simp [h2 (by simpa using hv)]

theorem itemLtB_le_trans {x y z : JVal}
    (hx : goodKeyB x = true) (hy : goodKeyB y = true) (hz : goodKeyB z = true)
    (h1 : itemLtB y x = false) (h2 : itemLtB z y = false) : itemLtB z x = false := by
  obtain ⟨hc1, hp1⟩ := itemLtB_false_parts h1
  obtain ⟨hc2, hp2⟩ := itemLtB_false_parts h2
  refine itemLtB_false_of_parts (codesLtB_le_trans _ _ _ hc1 hc2) ?_
  intro he
  have hyx : keyName y = keyName x := by
    refine codesLtB_conn _ _ hc1 ?_
    rw [← he]
    exact hc2
  have hzy : keyName z = keyName y := by rw [he, ← hyx]
  exact pq_le_trans (goodKey_den hy) (hp1 hyx) (hp2 hzy)

theorem itemEqvB_of_not_lt {x y : JVal}
    (h1 : itemLtB x y = false) (h2 : itemLtB y x = false) : itemEqvB x y = true := by
  obtain ⟨hc1, hp1⟩ := itemLtB_false_parts h1
  obtain ⟨hc2, hp2⟩ := itemLtB_false_parts h2
  have he : keyName x = keyName y := codesLtB_conn _ _ hc1 hc2
  rw [itemEqvB, he]
  simp only [beq_self_eq_true, Bool.true_and]
  exact pq_conn (hp1 he) (hp2 he.symm)

theorem itemEqvB_compat {a x y : JVal} (ha : 0 < (keyPrice a).d)
    (h1 : itemEqvB x a = true) (h2 : itemEqvB y a = true) : itemLtB x y = false := by
  simp only [itemEqvB, Bool.and_eq_true, beq_iff_eq] at h1 h2
  refine itemLtB_false_of_parts ?_ ?_
  · rw [h1.1, ← h2.1, codesLtB_irrefl]
  · intro _
    exact pq_eq_not_lt (pqEqB_trans ha h1.2 (pqEqB_symm h2.2))

theorem jvOr_arr (l : List JVal) : jvOr (.arr l) (.arr []) = .arr l := by
  cases l <;> rfl

theorem canonicalize_mkPayload_step (sc sn dt tt cur tax td : JVal) (l : List JVal) :
    canonicalize_receipt (mkPayload sc sn dt tt cur tax td l) =
      Except.bind (mapME canonItemE l) (fun cItems =>
        Except.bind (sortE itemLt cItems) (fun sorted =>
          .ok (mkCanon sc sn dt tt cur tax td sorted))) := by
  cases l <;> rfl

theorem mapME_canonItemE (l : List JVal) (hobj : ∀ it ∈ l, isObjB it = true) :
    mapME canonItemE l = .ok (l.map canonItem) := by
  induction l with
  | nil => rfl
  | cons x xs ih =>
    have hx : canonItemE x = .ok (canonItem x) := by
      rw [canonItemE, if_pos]
      exact hobj x (List.mem_cons_self x xs)
    have ihh := ih (fun it hit => hobj it (List.mem_cons_of_mem x hit))
    simp [mapME, hx, ihh]

theorem sortE_items (l : List JVal) (hg : ∀ a ∈ l, goodKeyB a = true) :
    sortE itemLt l = .ok (sortLt itemLtB l) :=
  sortE_eq l (fun a ha b hb => itemLt_ok (hg a ha) (hg b hb))

theorem canonicalize_mkPayload (sc sn dt tt cur tax td : JVal) (l : List JVal)
    (hobj : ∀ it ∈ l, isObjB it = true)
    (hg : ∀ it ∈ l, goodKeyB (canonItem it) = true) :
    canonicalize_receipt (mkPayload sc sn dt tt cur tax td l) =
      .ok (mkCanon sc sn dt tt cur tax td (sortLt itemLtB (l.map canonItem))) := by
  rw [canonicalize_mkPayload_step, mapME_canonItemE l hobj]
  have hgood : ∀ a ∈ l.map canonItem, goodKeyB a = true := by
    intro a ha
    obtain ⟨it, hit, rfl⟩ := List.mem_map.mp ha
    exact hg it hit
  simp [Except.bind, sortE_items (l.map canonItem) hgood]

theorem canonicalize_obj_step (kvs : List (String × JVal)) :
    canonicalize_receipt (.obj kvs) =
      Except.bind (jIter (jvOr (jget (.obj kvs) "items") (.arr [])))
        (fun itemsList => Except.bind (mapME canonItemE itemsList) (fun cItems =>
          Except.bind (sortE itemLt cItems) (fun sorted =>
            .ok (mkCanon (jget (.obj kvs) "store_category") (jget (.obj kvs) "store_name")
              (jget (.obj kvs) "date") (jget (.obj kvs) "total") (jget (.obj kvs) "currency")
              (jget (.obj kvs) "tax_amount") (jget (.obj kvs) "total_discount") sorted)))) := rfl

/-- Claim C1, counterexample: two receipt payloads that differ only in the
order of their item list need not canonicalize to the same value.  `cexR1`
and `cexR2` hold the same two items — tied on the (name, price) sort key but
differing in `total` — in the two orders; the stable sort preserves each
submission order, so the canonical forms differ and so do the fingerprints. -/
theorem c1_cex :
    canonicalize_receipt cexR1 ≠ canonicalize_receipt cexR2 ∧
      compute_fingerprint (okJ (canonicalize_receipt cexR1)) ≠
        compute_fingerprint (okJ (canonicalize_receipt cexR2)) := by
  have hfp : compute_fingerprint (okJ (canonicalize_receipt cexR1)) ≠
      compute_fingerprint (okJ (canonicalize_receipt cexR2)) := by decide
  exact ⟨fun h => hfp (by rw [h]), hfp⟩

/-- Claim C1, amended: for payloads differing only in the order of their item
list — with items that are objects, whose sort keys compare cleanly, and such
that any two items with equal (name-or-empty, price-or-zero) sort keys are
identical — canonicalization gives the same canonical form, and therefore
`compute_fingerprint` yields the same digest. -/
theorem c1_thm (sc sn dt tt cur tax td : JVal) (l₁ l₂ : List JVal)
    (hper : List.Perm l₁ l₂)
    (hobj : ∀ it ∈ l₁, isObjB it = true)
    (hg : ∀ it ∈ l₁, goodKeyB (canonItem it) = true)
    (hties : ∀ a ∈ l₁, ∀ b ∈ l₁, itemEqvB (canonItem a) (canonItem b) = true →
      canonItem a = canonItem b) :
    canonicalize_receipt (mkPayload sc sn dt tt cur tax td l₁) =
      canonicalize_receipt (mkPayload sc sn dt tt cur tax td l₂) ∧
    compute_fingerprint (okJ (canonicalize_receipt (mkPayload sc sn dt tt cur tax td l₁))) =
      compute_fingerprint (okJ (canonicalize_receipt (mkPayload sc sn dt tt cur tax td l₂))) := by
  have hobj₂ : ∀ it ∈ l₂, isObjB it = true := fun it hit => hobj it (hper.mem_iff.mpr hit)
  have hg₂ : ∀ it ∈ l₂, goodKeyB (canonItem it) = true :=
    fun it hit => hg it (hper.mem_iff.mpr hit)
  have hmgood : ∀ a ∈ l₁.map canonItem, goodKeyB a = true := by
    intro a ha
    obtain ⟨it, hit, rfl⟩ := List.mem_map.mp ha
    exact hg it hit
  have hmper : List.Perm (l₁.map canonItem) (l₂.map canonItem) := hper.map canonItem
  have hsorted : sortLt itemLtB (l₁.map canonItem) = sortLt itemLtB (l₂.map canonItem) := by
    refine @pairwise_perm_eq JVal (fun a b => itemLtB b a = false) _ _
      (((sortLt_perm itemLtB (l₁.map canonItem)).trans hmper).trans
        (sortLt_perm itemLtB (l₂.map canonItem)).symm) ?_ ?_ ?_
    · intro a ha b hb hab hba
      have ha' : a ∈ l₁.map canonItem := mem_sortLt.mp ha
      have hb' : b ∈ l₁.map canonItem := mem_sortLt.mp hb
      obtain ⟨ia, hia, rfl⟩ := List.mem_map.mp ha'
      obtain ⟨ib, hib, rfl⟩ := List.mem_map.mp hb'
      exact hties ia hia ib hib (itemEqvB_of_not_lt hba hab)
    · exact @sortLt_pairwise JVal itemLtB goodKeyB (fun a b _ _ h => itemLtB_asym h)
        (fun a b c hga hgb hgc h1 h2 => itemLtB_le_trans hga hgb hgc h1 h2) _ hmgood
    · refine @sortLt_pairwise JVal itemLtB goodKeyB (fun a b _ _ h => itemLtB_asym h)
        (fun a b c hga hgb hgc h1 h2 => itemLtB_le_trans hga hgb hgc h1 h2) _ ?_
      intro a ha
      exact hmgood a (hmper.mem_iff.mpr ha)
  have hmain : canonicalize_receipt (mkPayload sc sn dt tt cur tax td l₁) =
      canonicalize_receipt (mkPayload sc sn dt tt cur tax td l₂) := by
    rw [canonicalize_mkPayload sc sn dt tt cur tax td l₁ hobj hg,
        canonicalize_mkPayload sc sn dt tt cur tax td l₂ hobj₂ hg₂, hsorted]
  exact ⟨hmain, by rw [hmain]⟩

/-- Witness for the amended C1 at a concrete pair of payloads. -/
theorem c1_witness :
    canonicalize_receipt (mkPayload .null .null (.str "2024-01-05") (.num ⟨25, 2⟩)
        .null .null .null [witBread, witMilk]) =
      canonicalize_receipt (mkPayload .null .null (.str "2024-01-05") (.num ⟨25, 2⟩)
        .null .null .null [witMilk, witBread]) ∧
    compute_fingerprint (okJ (canonicalize_receipt (mkPayload .null .null
        (.str "2024-01-05") (.num ⟨25, 2⟩) .null .null .null [witBread, witMilk]))) =
      compute_fingerprint (okJ (canonicalize_receipt (mkPayload .null .null
        (.str "2024-01-05") (.num ⟨25, 2⟩) .null .null .null [witMilk, witBread]))) := by
  refine c1_thm .null .null (.str "2024-01-05") (.num ⟨25, 2⟩) .null .null .null
    [witBread, witMilk] [witMilk, witBread] (List.Perm.swap witMilk witBread [])
    (by decide) (by decide) ?_
  intro a ha b hb hab
  have ha' : a = witBread ∨ a = witMilk := by simpa using ha
  have hb' : b = witBread ∨ b = witMilk := by simpa using hb
  rcases ha' with rfl | rfl <;> rcases hb' with rfl | rfl
  · rfl
  · exact absurd hab (by decide)
  · exact absurd hab (by decide)
  · rfl

/-- Claim C8, counterexample: canonicalization can fail.  A payload with two
items whose names are both absent and whose prices are a (truthy) string and a
number makes the tuple sort-key comparison fall through to `"x" < 5`, which
raises `TypeError`, so `canonicalize_receipt` raises instead of tolerating the
malformed field value. -/
theorem c8_cex : canonicalize_receipt c8Bad = .error () := rfl

/-- Claim C8, amended: on an object payload whose effective item list (after
`data.get("items") or []`) is a list of objects with cleanly comparable sort
keys, canonicalization never fails and produces exactly the seven `data.get`
scalars — explicit nulls when absent — plus the sorted reduced items; and a
null or missing `items` field is treated as the empty list. -/
theorem c8_thm :
    (∀ (kvs : List (String × JVal)) (l : List JVal),
      jvOr (jget (.obj kvs) "items") (.arr []) = .arr l →
      (∀ it ∈ l, isObjB it = true) →
      (∀ it ∈ l, goodKeyB (canonItem it) = true) →
      canonicalize_receipt (.obj kvs) =
        .ok (mkCanon (jget (.obj kvs) "store_category") (jget (.obj kvs) "store_name")
          (jget (.obj kvs) "date") (jget (.obj kvs) "total") (jget (.obj kvs) "currency")
          (jget (.obj kvs) "tax_amount") (jget (.obj kvs) "total_discount")
          (sortLt itemLtB (l.map canonItem)))) ∧
    (∀ kvs : List (String × JVal), isNullB (jget (.obj kvs) "items") = true →
      canonicalize_receipt (.obj kvs) =
        .ok (mkCanon (jget (.obj kvs) "store_category") (jget (.obj kvs) "store_name")
          (jget (.obj kvs) "date") (jget (.obj kvs) "total") (jget (.obj kvs) "currency")
          (jget (.obj kvs) "tax_amount") (jget (.obj kvs) "total_discount") [])) := by
  constructor
  · intro kvs l hl hobj hg
    have hmgood : ∀ a ∈ l.map canonItem, goodKeyB a = true := by
      intro a ha
      obtain ⟨it, hit, rfl⟩ := List.mem_map.mp ha
      exact hg it hit
    rw [canonicalize_obj_step, hl]
    show Except.bind (Except.ok l) _ = _
    rw [show ∀ (f : List JVal → Except Unit JVal), Except.bind (Except.ok l) f = f l
          from fun _ => rfl]
    rw [mapME_canonItemE l hobj]
    simp [Except.bind, sortE_items (l.map canonItem) hmgood]
  · intro kvs hnull
    have hl : jvOr (jget (.obj kvs) "items") (.arr []) = .arr [] := by
      cases hv : jget (.obj kvs) "items" with
      | null => rfl
      | bool b => rw [hv] at hnull; simp [isNullB] at hnull
      | num q => rw [hv] at hnull; simp [isNullB] at hnull
      | nf k => rw [hv] at hnull; simp [isNullB] at hnull
      | str s => rw [hv] at hnull; simp [isNullB] at hnull
      | arr xs => rw [hv] at hnull; simp [isNullB] at hnull
      | obj f => rw [hv] at hnull; simp [isNullB] at hnull
    rw [canonicalize_obj_step, hl]
    rfl

/-- Witness for the amended C8: a well-formed payload canonicalizes, and a
null `items` value yields the empty canonical item list. -/
theorem c8_witness :
    canonicalize_receipt (.obj c8GoodKvs) =
      .ok (mkCanon (jget (.obj c8GoodKvs) "store_category") (jget (.obj c8GoodKvs) "store_name")
        (jget (.obj c8GoodKvs) "date") (jget (.obj c8GoodKvs) "total")
        (jget (.obj c8GoodKvs) "currency") (jget (.obj c8GoodKvs) "tax_amount")
        (jget (.obj c8GoodKvs) "total_discount") (sortLt itemLtB ([witBread].map canonItem))) ∧
    canonicalize_receipt (.obj c8NullKvs) =
      .ok (mkCanon (jget (.obj c8NullKvs) "store_category") (jget (.obj c8NullKvs) "store_name")
        (jget (.obj c8NullKvs) "date") (jget (.obj c8NullKvs) "total")
        (jget (.obj c8NullKvs) "currency") (jget (.obj c8NullKvs) "tax_amount")
        (jget (.obj c8NullKvs) "total_discount") []) :=
  ⟨c8_thm.1 c8GoodKvs [witBread] rfl (by decide) (by decide), c8_thm.2 c8NullKvs rfl⟩

/-- Claim C5: the item sort performed by `canonicalize_receipt` is stable —
for a payload whose items sort cleanly, the canonical item list restricted to
any sort-key class (keyed by an item of the list) equals the submitted item
list restricted to that class, i.e. tied items keep their submission order. -/
theorem c5_thm (sc sn dt tt cur tax td : JVal) (l : List JVal)
    (hobj : ∀ it ∈ l, isObjB it = true)
    (hg : ∀ it ∈ l, goodKeyB (canonItem it) = true) :
    canonicalize_receipt (mkPayload sc sn dt tt cur tax td l) =
      .ok (mkCanon sc sn dt tt cur tax td (sortLt itemLtB (l.map canonItem))) ∧
    ∀ a ∈ l.map canonItem,
      (sortLt itemLtB (l.map canonItem)).filter (fun x => itemEqvB x a) =
        (l.map canonItem).filter (fun x => itemEqvB x a) := by
  refine ⟨canonicalize_mkPayload sc sn dt tt cur tax td l hobj hg, ?_⟩
  intro a ha
  have hga : goodKeyB a = true := by
    obtain ⟨it, hit, rfl⟩ := List.mem_map.mp ha
    exact hg it hit
  refine sortLt_filter (fun x => itemEqvB x a) (l.map canonItem) ?_
  intro x _ y _ hxa hya
  exact itemEqvB_compat (goodKey_den hga) hxa hya

/-- Witness for C5 at a payload holding two items tied on (name, price) but
with different totals. -/
theorem c5_witness :
    canonicalize_receipt (mkPayload .null .null .null .null .null .null .null
        [cexTiedA, cexTiedB]) =
      .ok (mkCanon .null .null .null .null .null .null .null
        (sortLt itemLtB ([cexTiedA, cexTiedB].map canonItem))) ∧
    (sortLt itemLtB ([cexTiedA, cexTiedB].map canonItem)).filter
        (fun x => itemEqvB x (canonItem cexTiedA)) =
      ([cexTiedA, cexTiedB].map canonItem).filter (fun x => itemEqvB x (canonItem cexTiedA)) := by
  have h := c5_thm .null .null .null .null .null .null .null [cexTiedA, cexTiedB]
    (by decide) (by decide)
  exact ⟨h.1, h.2 (canonItem cexTiedA) (List.mem_cons_self _ _)⟩

theorem strLtB_asym {a b : String × String} (h : pairKeyLtB a b = true) :
    pairKeyLtB b a = false := codesLtB_asym _ _ h

theorem pairKey_le_trans {a b c : String × String}
    (h1 : pairKeyLtB b a = false) (h2 : pairKeyLtB c b = false) : pairKeyLtB c a = false :=
  codesLtB_le_trans _ _ _ h1 h2

theorem dumpsP_eq_map : ∀ kvs : List (String × JVal), dumpsP kvs = kvs.map dumpPair := by
  intro kvs
  induction kvs with
  | nil => rfl
  | cons kv rest ih =>
    cases kv with
    | mk k v => simp [dumpsP, dumpPair, ih]

theorem insertLt_dumpPair (x : String × JVal) :
    ∀ m : List (String × JVal),
      insertLt pairKeyLtB (dumpPair x) (m.map dumpPair) = (insertLt pairJLtB x m).map dumpPair := by
  intro m
  induction m with
  | nil => rfl
  | cons y ys ih =>
    have hcond : pairKeyLtB (dumpPair y) (dumpPair x) = pairJLtB y x := rfl
    by_cases h : pairJLtB y x = true
    · simp [insertLt, hcond, h, ih]
    · have h' : pairJLtB y x = false := by
        cases hv : pairJLtB y x with
        | false => rfl
        | true => exact absurd hv h
      simp [insertLt, hcond, h']

theorem sortLt_dumpPair :
    ∀ kvs : List (String × JVal),
      sortLt pairKeyLtB (kvs.map dumpPair) = (sortLt pairJLtB kvs).map dumpPair := by
  intro kvs
  induction kvs with
  | nil => rfl
  | cons kv rest ih => rw [List.map_cons, sortLt, ih, sortLt, insertLt_dumpPair]

theorem sortLt_pairKey_idem (m : List (String × String)) :
    sortLt pairKeyLtB (sortLt pairKeyLtB m) = sortLt pairKeyLtB m := by
  refine sortLt_of_pairwise _ ?_
  exact @sortLt_pairwise (String × String) pairKeyLtB (fun _ => true)
    (fun a b _ _ h => strLtB_asym h)
    (fun a b c _ _ _ h1 h2 => pairKey_le_trans h1 h2) m (fun _ _ => rfl)

theorem dumps_obj_sorted (kvs : List (String × JVal)) :
    dumps (.obj kvs) = dumps (.obj (sortLt pairJLtB kvs)) := by
  show "\x7b" ++ joinWith ","
      ((sortLt pairKeyLtB (dumpsP kvs)).map (fun kv => strDumps kv.1 ++ ":" ++ kv.2)) ++ "\x7d" =
    "\x7b" ++ joinWith ","
      ((sortLt pairKeyLtB (dumpsP (sortLt pairJLtB kvs))).map
        (fun kv => strDumps kv.1 ++ ":" ++ kv.2)) ++ "\x7d"
  rw [dumpsP_eq_map, dumpsP_eq_map, ← sortLt_dumpPair, sortLt_pairKey_idem]

theorem length_concatAll_byteHex :
    ∀ bs : List Nat, (concatAll (bs.map byteHex)).length = 2 * bs.length := by
  intro bs
  induction bs with
  | nil => rfl
  | cons b rest ih =>
    show (byteHex b ++ concatAll (rest.map byteHex)).length = 2 * (rest.length + 1)
    rw [String.length_append, ih]
    have hb : (byteHex b).length = 2 := rfl
    rw [hb]
    omega

theorem mem_concatAll_byteHex :
    ∀ (bs : List Nat) (c : Char), c ∈ (concatAll (bs.map byteHex)).data →
      ∃ b ∈ bs, c ∈ (byteHex b).data := by
  intro bs
  induction bs with
  | nil => intro c hc; exact absurd hc (by simp [concatAll])
  | cons b rest ih =>
    intro c hc
    have : c ∈ (byteHex b).data ∨ c ∈ (concatAll (rest.map byteHex)).data := by
      have hsplit : (byteHex b ++ concatAll (rest.map byteHex)).data =
          (byteHex b).data ++ (concatAll (rest.map byteHex)).data := String.data_append _ _
      have hc' : c ∈ (byteHex b).data ++ (concatAll (rest.map byteHex)).data := by
        rw [← hsplit]; exact hc
      exact List.mem_append.mp hc'
    rcases this with h | h
    · exact ⟨b, List.mem_cons_self b rest, h⟩
    · obtain ⟨b', hb', hcb⟩ := ih c h
      exact ⟨b', List.mem_cons_of_mem b hb', hcb⟩

theorem hexLow_mem (n : Nat) : hexLow n ∈ hexDigitsList := by
  have h : n % 16 < hexDigitsList.length := Nat.mod_lt _ (by norm_num)
  show hexDigitsList.getD (n % 16) '0' ∈ hexDigitsList
  rw [List.getD_eq_getElem hexDigitsList '0' h]
  exact List.getElem_mem h

/-- Claim C4: `compute_fingerprint` is the SHA-256 hex digest of the UTF-8
bytes of the sorted-keys, compact-separator serialization; its output always
has 64 characters, all lowercase hexadecimal digits; and it does not depend
on the submission order of object fields (serializing an object and its
key-sorted reordering gives the same digest). -/
theorem c4_thm :
    (∀ r : JVal, compute_fingerprint r = sha256hex (utf8Bytes (dumps r)) ∧
      (compute_fingerprint r).length = 64 ∧
      (∀ c ∈ (compute_fingerprint r).data, c ∈ hexDigitsList)) ∧
    (∀ kvs : List (String × JVal),
      compute_fingerprint (.obj kvs) = compute_fingerprint (.obj (sortLt pairJLtB kvs))) := by
  constructor
  · intro r
    refine ⟨rfl, ?_, ?_⟩
    · show (concatAll ((digestBytes (sha256Words (utf8Bytes (dumps r)))).map byteHex)).length = 64
      rw [length_concatAll_byteHex]
      have : (digestBytes (sha256Words (utf8Bytes (dumps r)))).length = 32 := rfl
      rw [this]
    · intro c hc
      obtain ⟨b, _, hcb⟩ := mem_concatAll_byteHex _ c hc
      have : (byteHex b).data = [hexLow (b / 16), hexLow b] := rfl
      rw [this] at hcb
      rcases List.mem_cons.mp hcb with rfl | hcb'
      · exact hexLow_mem _
      · rcases List.mem_cons.mp hcb' with rfl | hemp
        · exact hexLow_mem _
        · exact absurd hemp (by simp)
  · intro kvs
    show sha256hex (utf8Bytes (dumps (.obj kvs))) =
      sha256hex (utf8Bytes (dumps (.obj (sortLt pairJLtB kvs))))
    rw [dumps_obj_sorted]

/-- Witness for C4: concrete digest length, a concrete digest character, and
field-order invariance at a concrete object. -/
theorem c4_witness :
    (compute_fingerprint JVal.null).length = 64 ∧
    (compute_fingerprint JVal.null).data.headD 'x' ∈ hexDigitsList ∧
    compute_fingerprint (.obj [("b", .num pqOne), ("a", .null)]) =
      compute_fingerprint (.obj (sortLt pairJLtB [("b", .num pqOne), ("a", .null)])) :=
  ⟨(c4_thm.1 JVal.null).2.1,
   (c4_thm.1 JVal.null).2.2 _ (by decide),
   c4_thm.2 [("b", .num pqOne), ("a", .null)]⟩

/-- Claim C2: with a nonempty body, a submission is rejected with the
quota-exceeded condition exactly when the user's plan is `basic` and the
count of that user's stored receipts dated inside the current calendar month
of "now" (`today`, not the submitted date) has reached the configured limit;
a user on any other plan is never quota-rejected, whatever the count. -/
theorem c2_thm (st : List StoredReceipt) (u : UserRec) (data : JVal) (today : PyDate)
    (htruthy : truthyB data = true) :
    (add_receipt st u data today).1 = .quotaExceeded BASIC_MONTHLY_LIMIT ↔
      (u.plan = "basic" ∧ BASIC_MONTHLY_LIMIT ≤ monthCount st u.id today) := by
  have hne : ¬ (truthyB data = false) := by rw [htruthy]; simp
  constructor
  · intro h
    by_contra hq
    unfold add_receipt at h
    rw [if_neg hne, if_neg hq] at h
    repeat' split at h
    all_goals simp at h
  · intro hq
    unfold add_receipt
    rw [if_neg hne, if_pos hq]

/-- Witness for C2 at a basic user holding exactly the limit in the current
month. -/
theorem c2_witness :
    truthyB payload0 = true ∧
    ((add_receipt (stJan 8) uBasic payload0 tJan).1 = .quotaExceeded BASIC_MONTHLY_LIMIT ↔
      (uBasic.plan = "basic" ∧ BASIC_MONTHLY_LIMIT ≤ monthCount (stJan 8) uBasic.id tJan)) :=
  ⟨by decide, c2_thm (stJan 8) uBasic payload0 tJan (by decide)⟩

/-- Claim C10: in `add_receipt` (nonempty body) the quota gate precedes the
duplicate check and both precede required-field validation: (a) when the
quota gate passes and the payload's fingerprint already exists for this user,
the result is a duplicate conflict and the store is unchanged, regardless of
missing `date`/`total`; (b) a basic-plan user at or over the limit is always
rejected with the quota condition, regardless of the payload; (c) a
validation rejection implies the quota gate passed, no duplicate existed, and
nothing was persisted. -/
theorem c10_thm (st : List StoredReceipt) (u : UserRec) (data : JVal) (today : PyDate)
    (htruthy : truthyB data = true) :
    (∀ canon, canonicalize_receipt data = .ok canon →
      hasDupB st u.id (compute_fingerprint canon) = true →
      ¬ (u.plan = "basic" ∧ BASIC_MONTHLY_LIMIT ≤ monthCount st u.id today) →
      add_receipt st u data today = (.duplicate, st)) ∧
    ((u.plan = "basic" ∧ BASIC_MONTHLY_LIMIT ≤ monthCount st u.id today) →
      add_receipt st u data today = (.quotaExceeded BASIC_MONTHLY_LIMIT, st)) ∧
    (∀ f, (add_receipt st u data today).1 = .validationError f →
      ¬ (u.plan = "basic" ∧ BASIC_MONTHLY_LIMIT ≤ monthCount st u.id today) ∧
      (∀ canon, canonicalize_receipt data = .ok canon →
        hasDupB st u.id (compute_fingerprint canon) = false) ∧
      (add_receipt st u data today).2 = st) := by
  have hne : ¬ (truthyB data = false) := by rw [htruthy]; simp
  refine ⟨?_, ?_, ?_⟩
  · intro canon hcc hdup hq
    unfold add_receipt
    rw [if_neg hne, if_neg hq]
    simp [hcc, hdup]
  · intro hq
    unfold add_receipt
    rw [if_neg hne, if_pos hq]
  · intro f h
    by_cases hq : (u.plan = "basic" ∧ BASIC_MONTHLY_LIMIT ≤ monthCount st u.id today)
    · exfalso
      unfold add_receipt at h
      rw [if_neg hne, if_pos hq] at h
      simp at h
    · refine ⟨hq, ?_, ?_⟩
      · intro canon hcc
        cases hdup : hasDupB st u.id (compute_fingerprint canon) with
        | false => rfl
        | true =>
          exfalso
          unfold add_receipt at h
          rw [if_neg hne, if_neg hq] at h
          simp [hcc, hdup] at h
      · have h2 : (add_receipt st u data today).1 = .validationError f →
            (add_receipt st u data today).2 = st := by
          unfold add_receipt
          repeat' split
          all_goals intro hh
          all_goals first | rfl | simp at hh
        exact h2 h

/-- Witness for C10: a duplicate of a date-less payload is reported as a
duplicate, a basic user over the limit gets the quota rejection for the same
invalid payload, and a clean submission of it fails validation with nothing
stored. -/
theorem c10_witness :
    add_receipt stWithDup uBasic payloadNoDate tJan = (.duplicate, stWithDup) ∧
    add_receipt (stJan 8) uBasic payloadNoDate tJan =
      (.quotaExceeded BASIC_MONTHLY_LIMIT, stJan 8) ∧
    (¬ (uBasic.plan = "basic" ∧ BASIC_MONTHLY_LIMIT ≤ monthCount [] uBasic.id tJan) ∧
      (∀ canon, canonicalize_receipt payloadNoDate = .ok canon →
        hasDupB [] uBasic.id (compute_fingerprint canon) = false) ∧
      (add_receipt [] uBasic payloadNoDate tJan).2 = []) := by
  refine ⟨?_, ?_, ?_⟩
  · exact (c10_thm stWithDup uBasic payloadNoDate tJan (by decide)).1
      (okJ (canonicalize_receipt payloadNoDate)) rfl rfl (by decide)
  · exact (c10_thm (stJan 8) uBasic payloadNoDate tJan (by decide)).2.1 (by decide)
  · exact (c10_thm [] uBasic payloadNoDate tJan (by decide)).2.2 "date" rfl

theorem add_receipt_created_inv {st : List StoredReceipt} {u : UserRec} {data : JVal}
    {today : PyDate} {r : StoredReceipt} {st₁ : List StoredReceipt}
    (h : add_receipt st u data today = (.created r, st₁)) :
    truthyB data = true ∧
    ¬ (u.plan = "basic" ∧ BASIC_MONTHLY_LIMIT ≤ monthCount st u.id today) ∧
    ∃ canon s d,
      canonicalize_receipt data = .ok canon ∧
      hasDupB st u.id (compute_fingerprint canon) = false ∧
      isNullB (jget data "date") = false ∧
      isNullB (jget data "total") = false ∧
      jget data "date" = .str s ∧
      parseDate s = some d ∧
      r = ⟨u.id, jget data "store_category", jget data "store_name", some d,
           jget data "total", jget data "tax_amount", jget data "total_discount",
           jget data "items", compute_fingerprint canon, st.length⟩ ∧
      st₁ = st ++ [r] := by
  unfold add_receipt at h
  split at h
  · simp at h
  · rename_i ht
    split at h
    · simp at h
    · rename_i hq
      split at h
      · simp at h
      · rename_i canon heq
        split at h
        · simp at h
        · rename_i hdup
          split at h
          · simp at h
          · rename_i hvd
            split at h
            · simp at h
            · rename_i hvt
              split at h
              · rename_i s hdv
                split at h
                · simp at h
                · rename_i d hp
                  simp only [Prod.mk.injEq, AddResult.created.injEq] at h
                  obtain ⟨hr, hst⟩ := h
                  have ht' : truthyB data = true := by
                    cases hb : truthyB data with
                    | true => rfl
                    | false => exact absurd hb ht
                  have hdup' : hasDupB st u.id (compute_fingerprint canon) = false := by
                    cases hb : hasDupB st u.id (compute_fingerprint canon) with
                    | false => rfl
                    | true => exact absurd hb hdup
                  have hvd' : isNullB (jget data "date") = false := by
                    cases hb : isNullB (jget data "date") with
                    | false => rfl
                    | true => exact absurd hb hvd
                  have hvt' : isNullB (jget data "total") = false := by
                    cases hb : isNullB (jget data "total") with
                    | false => rfl
                    | true => exact absurd hb hvt
                  refine ⟨ht', hq, canon, s, d, heq, hdup', hvd', hvt', hdv, hp,
                    hr.symm, ?_⟩
                  rw [← hr]
                  exact hst.symm
              · simp at h

theorem add_receipt_state (st : List StoredReceipt) (u : UserRec) (data : JVal)
    (today : PyDate) :
    (add_receipt st u data today).2 = st ∨
      ∃ r, add_receipt st u data today = (.created r, st ++ [r]) := by
  unfold add_receipt
  repeat' split
  all_goals first | exact Or.inl rfl | exact Or.inr ⟨_, rfl⟩

/-- Claim C3, counterexample: resubmitting an identical payload need not give
a duplicate conflict.  A basic user with seven receipts dated in the current
month submits `payload0` (also dated this month): the first submission is
stored, the resubmission is rejected by the quota gate — which runs before
the duplicate check — so the outcome is QuotaExceeded, not DuplicateReceipt. -/
theorem c3_cex :
    isCreatedB (add_receipt (stJan 7) uBasic payload0 tJan).1 = true ∧
    (add_receipt (add_receipt (stJan 7) uBasic payload0 tJan).2 uBasic payload0 tJan).1 =
      .quotaExceeded BASIC_MONTHLY_LIMIT := ⟨rfl, rfl⟩

/-- Claim C3, amended: (a) after a successful submission, resubmitting the
same payload for the same user yields a DuplicateReceipt conflict and leaves
the store unchanged, provided the resubmission still passes the quota gate;
(b) after a successful submission, a different user who passes the quota
gate and owns no receipt with that payload's fingerprint can successfully
submit the same payload; (c) every submission preserves the invariant that
the pair (user, fingerprint) is unique among stored receipts. -/
theorem c3_thm :
    (∀ (st : List StoredReceipt) (u : UserRec) (data : JVal) (today : PyDate)
       (r : StoredReceipt) (st₁ : List StoredReceipt),
      add_receipt st u data today = (.created r, st₁) →
      ¬ (u.plan = "basic" ∧ BASIC_MONTHLY_LIMIT ≤ monthCount st₁ u.id today) →
      add_receipt st₁ u data today = (.duplicate, st₁)) ∧
    (∀ (st : List StoredReceipt) (u : UserRec) (data : JVal) (today : PyDate)
       (r : StoredReceipt) (st₁ : List StoredReceipt) (v : UserRec),
      add_receipt st u data today = (.created r, st₁) →
      v.id ≠ u.id →
      ¬ (v.plan = "basic" ∧ BASIC_MONTHLY_LIMIT ≤ monthCount st₁ v.id today) →
      (∀ s ∈ st, s.user_id = v.id →
        s.fingerprint ≠ compute_fingerprint (okJ (canonicalize_receipt data))) →
      ∃ r₂, add_receipt st₁ v data today = (.created r₂, st₁ ++ [r₂])) ∧
    (∀ (st : List StoredReceipt) (u : UserRec) (data : JVal) (today : PyDate),
      UniqueFP st → UniqueFP (add_receipt st u data today).2) := by
  refine ⟨?_, ?_, ?_⟩
  · intro st u data today r st₁ h1 hq
    obtain ⟨ht, _, canon, s, d, heq, hdup, _, _, hdv, hp, hr, hst⟩ :=
      add_receipt_created_inv h1
    have hdup₁ : hasDupB st₁ u.id (compute_fingerprint canon) = true := by
      rw [hst]
      unfold hasDupB
      rw [List.any_append]
      have : [r].any (fun x => u.id == x.user_id &&
          compute_fingerprint canon == x.fingerprint) = true := by
        simp [hr]
      rw [this]
      simp
    unfold add_receipt
    rw [if_neg (by rw [ht]; simp), if_neg hq]
    simp [heq, hdup₁]
  · intro st u data today r st₁ v h1 hv hq hnodup
    obtain ⟨ht, _, canon, s, d, heq, hdup, hvd, hvt, hdv, hp, hr, hst⟩ :=
      add_receipt_created_inv h1
    have hfpeq : compute_fingerprint (okJ (canonicalize_receipt data)) =
        compute_fingerprint canon := by rw [heq]; rfl
    have hdupv : hasDupB st₁ v.id (compute_fingerprint canon) = false := by
      rw [hst]
      unfold hasDupB
      rw [List.any_append]
      have hA : st.any (fun x => v.id == x.user_id &&
          compute_fingerprint canon == x.fingerprint) = false := by
        rw [List.any_eq_false]
        intro x hx hcontra
        rw [Bool.and_eq_true, beq_iff_eq, beq_iff_eq] at hcontra
        exact hnodup x hx hcontra.1.symm (by rw [hfpeq]; exact hcontra.2.symm)
      have hB : [r].any (fun x => v.id == x.user_id &&
          compute_fingerprint canon == x.fingerprint) = false := by
        simp [hr]
        intro hvv
        exact absurd hvv hv
      rw [hA, hB]
      rfl
    refine ⟨⟨v.id, jget data "store_category", jget data "store_name", some d,
      jget data "total", jget data "tax_amount", jget data "total_discount",
      jget data "items", compute_fingerprint canon, st₁.length⟩, ?_⟩
    unfold add_receipt
    rw [if_neg (by rw [ht]; simp), if_neg hq]
    simp only [heq, hdupv, hvd, hvt]
    simp [hdv, hp]
  · intro st u data today hu
    rcases add_receipt_state st u data today with hsame | ⟨r, hcr⟩
    · rw [hsame]; exact hu
    · obtain ⟨_, _, canon, s, d, heq, hdup, _, _, hdv, hp, hr, _⟩ :=
        add_receipt_created_inv hcr
      rw [hcr]
      show UniqueFP (st ++ [r])
      unfold UniqueFP at hu ⊢
      rw [List.pairwise_append]
      refine ⟨hu, by simp, ?_⟩
      intro a ha b hb
      have hbr : b = r := by simpa using hb
      subst hbr
      rintro ⟨he1, he2⟩
      have := (List.any_eq_false.mp hdup) a ha
      simp only [Bool.and_eq_true, beq_iff_eq, not_and] at this
      rw [hr] at he1 he2
      exact this he1.symm he2.symm

/-- Witness for the amended C3 at concrete users, payload and store. -/
theorem c3_witness :
    add_receipt c3st1 uBasic payload0 tJan = (.duplicate, c3st1) ∧
    (∃ r₂, add_receipt c3st1 uPro payload0 tJan = (.created r₂, c3st1 ++ [r₂])) ∧
    UniqueFP (add_receipt [] uBasic payload0 tJan).2 := by
  refine ⟨?_, ?_, ?_⟩
  · exact c3_thm.1 [] uBasic payload0 tJan c3r0 c3st1 rfl (by decide)
  · exact c3_thm.2.1 [] uBasic payload0 tJan c3r0 c3st1 uPro rfl (by decide) (by decide)
      (fun s hs => absurd hs (List.not_mem_nil s))
  · exact c3_thm.2.2 [] uBasic payload0 tJan List.Pairwise.nil

/-- Claim C9: no field-edit operation recomputes the stored fingerprint —
whatever the arguments, the receipt coming out of `update_item_price` and out
of `update_receipt_field` carries the fingerprint of the stored receipt it
started from. -/
theorem c9_thm (r : StoredReceipt) (i p fieldJ valueJ ii itf itv : JVal) :
    (update_item_price r i p).2.fingerprint = r.fingerprint ∧
    (update_receipt_field r fieldJ valueJ ii itf itv).2.fingerprint = r.fingerprint := by
  constructor
  · unfold update_item_price finishItem
    repeat' split
    all_goals try rfl
    all_goals simp only []
    all_goals repeat' split
    all_goals rfl
  · unfold update_receipt_field finishItem
    repeat' split
    all_goals try rfl
    all_goals simp only []
    all_goals repeat' split
    all_goals rfl

theorem jlookup_jset_self (fs : List (String × JVal)) (k : String) (v : JVal) :
    jlookup (jset fs k v) k = some v := by
  induction fs with
  | nil => simp [jset, jlookup]
  | cons kv rest ih =>
    cases kv with
    | mk k1 v1 =>
      by_cases h : k1 = k
      · simp [jset, jlookup, h]
      · have hb : (k1 == k) = false := by
          cases hv : k1 == k with
          | false => rfl
          | true => exact absurd (by simpa using hv) h
        simp [jset, jlookup, hb, ih]

theorem jlookup_jset_ne (fs : List (String × JVal)) (k k2 : String) (v : JVal)
    (hne : k2 ≠ k) : jlookup (jset fs k v) k2 = jlookup fs k2 := by
  have hb2 : (k == k2) = false := by
    cases hv : k == k2 with
    | false => rfl
    | true => exact absurd (show k = k2 by simpa using hv).symm hne
  induction fs with
  | nil => simp [jset, jlookup, hb2]
  | cons kv rest ih =>
    cases kv with
    | mk k1 v1 =>
      by_cases h : k1 = k
      · subst h
        simp [jset, jlookup, hb2]
      · have hb : (k1 == k) = false := by
          cases hv : k1 == k with
          | false => rfl
          | true => exact absurd (by simpa using hv) h
        by_cases h12 : k1 = k2
        · simp [jset, jlookup, hb, h12, hne]
        · have hb12 : (k1 == k2) = false := by
            cases hv : k1 == k2 with
            | false => rfl
            | true => exact absurd (by simpa using hv) h12
          simp [jset, jlookup, hb, hb12, ih]

theorem resolveIndex_arr (its : List JVal) (i : Nat) (hi : i < its.length) :
    resolveIndex (.arr its) (.num ⟨(i : Int), 1⟩) = .okIdx its i := by
  have htru : truthyB (.arr its) = true := by
    cases its with
    | nil => exact absurd hi (by simp)
    | cons a as => rfl
  have hle : pqLeB pqZero ⟨(i : Int), 1⟩ = true :=
    decide_eq_true (by show (0 : Int) * (((1 : Nat)) : Int) ≤ (i : Int) * (((1 : Nat)) : Int); omega)
  have hlt : pqLtB ⟨(i : Int), 1⟩ ⟨(its.length : Int), 1⟩ = true :=
    decide_eq_true (by
      show (i : Int) * (((1 : Nat)) : Int) < (its.length : Int) * (((1 : Nat)) : Int)
      omega)
  have hex : exactNat? ⟨(i : Int), 1⟩ = some i := by
    unfold exactNat?
    rw [if_pos ⟨Nat.one_ne_zero, by show (i : Int) % (((1 : Nat)) : Int) = 0; omega,
        by show (0 : Int) ≤ (i : Int); omega⟩]
    simp only [Option.some.injEq]
    show ((i : Int) / (((1 : Nat)) : Int)).toNat = i
    omega
  unfold resolveIndex
  rw [htru]
  simp only [lenOfJ?, toPQ?, hle, hlt, hex]
  simp

theorem getD_set_ne (l : List JVal) (i j : Nat) (x : JVal) (h : j ≠ i) :
    (l.set i x).getD j .null = l.getD j .null := by
  unfold List.getD
  rw [List.get?_set_ne]
  omega

theorem update_item_price_ok (r : StoredReceipt) (its : List JVal) (i : Nat)
    (fs : List (String × JVal)) (pv : JVal) (p tot : FVal)
    (hits : r.items = .arr its) (hi : i < its.length)
    (hfs : its.getD i .null = .obj fs)
    (hpn : isNullB pv = false) (hpf : priceFloat? pv = some p)
    (hsum : sumTotals (its.set i (.obj (jset (jset fs "price" (fvalJ p)) "total"
      (fvalJ (fvMul p (qtyOf fs)))))) = some tot) :
    update_item_price r (.num ⟨(i : Int), 1⟩) pv =
      (.success, { r with
        items := .arr (its.set i (.obj (jset (jset fs "price" (fvalJ p)) "total"
          (fvalJ (fvMul p (qtyOf fs)))))),
        total := fvalJ tot }) := by
  unfold update_item_price
  rw [if_neg (by rw [hpn]; simp [isNullB])]
  simp only [hpf]
  rw [hits, resolveIndex_arr its i hi]
  simp only [hfs]
  unfold finishItem
  simp [hsum]

theorem update_quantity_ok (r : StoredReceipt) (its : List JVal) (i : Nat)
    (fs : List (String × JVal)) (qv : JVal) (q2 pr tot : FVal)
    (hits : r.items = .arr its) (hi : i < its.length)
    (hfs : its.getD i .null = .obj fs)
    (hqv : pyFloat? qv = some q2) (hpos : fvLeZeroB q2 = false)
    (hpr : priceOf? fs = some pr)
    (hsum : sumTotals (its.set i (.obj (jset (jset fs "quantity" (fvalJ q2)) "total"
      (fvalJ (fvMul pr q2))))) = some tot) :
    update_receipt_field r .null .null (.num ⟨(i : Int), 1⟩) (.str "quantity") qv =
      (.success, { r with
        items := .arr (its.set i (.obj (jset (jset fs "quantity" (fvalJ q2)) "total"
          (fvalJ (fvMul pr q2))))),
        total := fvalJ tot }) := by
  unfold update_receipt_field
  rw [if_neg (show ¬ ((strEqB JVal.null "store_name" || strEqB JVal.null "date" ||
      strEqB JVal.null "store_category") = true) from by decide)]
  have hguard : (!isNullB (JVal.num ⟨(i : Int), 1⟩) &&
      (strEqB (JVal.str "quantity") "name" || strEqB (JVal.str "quantity") "quantity" ||
       strEqB (JVal.str "quantity") "category")) = true := rfl
  rw [if_pos hguard]
  simp only [hits, resolveIndex_arr its i hi]
  rw [if_neg (show ¬ (strEqB (JVal.str "quantity") "name" = true) from by decide)]
  rw [if_pos (show strEqB (JVal.str "quantity") "quantity" = true from by decide)]
  simp only [hqv]
  rw [if_neg (by rw [hpos]; simp)]
  simp only [hfs, hpr]
  unfold finishItem
  simp [hsum]

theorem update_item_price_badformat (r : StoredReceipt) (iJ pv : JVal)
    (hin : isNullB iJ = false) (hpn : isNullB pv = false)
    (hpf : priceFloat? pv = none) :
    update_item_price r iJ pv = (.badRequest "Invalid price format", r) := by
  unfold update_item_price
  rw [if_neg (by rw [hin, hpn]; simp)]
  simp [hpf]

theorem update_quantity_badparse (r : StoredReceipt) (its : List JVal) (i : Nat) (qv : JVal)
    (hits : r.items = .arr its) (hi : i < its.length) (hqv : pyFloat? qv = none) :
    update_receipt_field r .null .null (.num ⟨(i : Int), 1⟩) (.str "quantity") qv =
      (.badRequest "Invalid quantity", r) := by
  unfold update_receipt_field
  rw [if_neg (show ¬ ((strEqB JVal.null "store_name" || strEqB JVal.null "date" ||
      strEqB JVal.null "store_category") = true) from by decide)]
  have hguard : (!isNullB (JVal.num ⟨(i : Int), 1⟩) &&
      (strEqB (JVal.str "quantity") "name" || strEqB (JVal.str "quantity") "quantity" ||
       strEqB (JVal.str "quantity") "category")) = true := rfl
  rw [if_pos hguard]
  simp only [hits, resolveIndex_arr its i hi]
  rw [if_neg (show ¬ (strEqB (JVal.str "quantity") "name" = true) from by decide)]
  rw [if_pos (show strEqB (JVal.str "quantity") "quantity" = true from by decide)]
  simp [hqv]

theorem update_quantity_nonpos (r : StoredReceipt) (its : List JVal) (i : Nat)
    (qv : JVal) (q2 : FVal)
    (hits : r.items = .arr its) (hi : i < its.length)
    (hqv : pyFloat? qv = some q2) (hpos : fvLeZeroB q2 = true) :
    update_receipt_field r .null .null (.num ⟨(i : Int), 1⟩) (.str "quantity") qv =
      (.badRequest "Quantity must be positive", r) := by
  unfold update_receipt_field
  rw [if_neg (show ¬ ((strEqB JVal.null "store_name" || strEqB JVal.null "date" ||
      strEqB JVal.null "store_category") = true) from by decide)]
  have hguard : (!isNullB (JVal.num ⟨(i : Int), 1⟩) &&
      (strEqB (JVal.str "quantity") "name" || strEqB (JVal.str "quantity") "quantity" ||
       strEqB (JVal.str "quantity") "category")) = true := rfl
  rw [if_pos hguard]
  simp only [hits, resolveIndex_arr its i hi]
  rw [if_neg (show ¬ (strEqB (JVal.str "quantity") "name" = true) from by decide)]
  rw [if_pos (show strEqB (JVal.str "quantity") "quantity" = true from by decide)]
  simp only [hqv]
  rw [if_pos hpos]

/-- Claim C6, counterexample: a price edit is accepted on an item whose
quantity field holds the non-numeric string `"abc"`; the conversion falls
back to quantity `1`, so the stored item total is the new price `5` itself,
while the quantity field keeps the value `"abc"` — the claimed
`total = price × quantity` fails on this accepted edit, since under the
spec's own convention a non-numeric quantity counts as zero and
`5 × 0 ≠ 5`. -/
theorem c6_cex :
    (update_item_price cexQR (.num ⟨0, 1⟩) (.num ⟨5, 1⟩)).1 = .success ∧
    jget (itemAt (update_item_price cexQR (.num ⟨0, 1⟩) (.num ⟨5, 1⟩)).2 0) "quantity" =
      .str "abc" ∧
    jget (itemAt (update_item_price cexQR (.num ⟨0, 1⟩) (.num ⟨5, 1⟩)).2 0) "total" =
      .num ⟨5, 1⟩ ∧
    pqEqB ⟨5, 1⟩ (pqMul ⟨5, 1⟩ pqZero) = false :=
  ⟨rfl, rfl, rfl, by decide⟩

/-- Claim C6, amended: an accepted price edit stores on the edited item
`total = new_price * q`, where `q` is the item's quantity coerced through
`float` with fallback `1` when the quantity is missing or unparsable
(`qtyOf`); an accepted quantity edit stores `total = p * qty`, where `p` is
the item's price coerced through `float` with `0` for a missing or null
price (`priceOf?`).  In both cases every other item is untouched, and the
receipt's total becomes the sum of the items' `total` fields with missing
or null totals counted as zero (`sumTotals`). -/
theorem c6_thm :
    (∀ (r : StoredReceipt) (its : List JVal) (i : Nat) (fs : List (String × JVal))
       (pv : JVal) (p tot : FVal),
      r.items = .arr its → i < its.length →
      its.getD i .null = .obj fs →
      isNullB pv = false → priceFloat? pv = some p →
      sumTotals (its.set i (.obj (jset (jset fs "price" (fvalJ p)) "total"
        (fvalJ (fvMul p (qtyOf fs)))))) = some tot →
      update_item_price r (.num ⟨(i : Int), 1⟩) pv =
        (.success, { r with
          items := .arr (its.set i (.obj (jset (jset fs "price" (fvalJ p)) "total"
            (fvalJ (fvMul p (qtyOf fs)))))),
          total := fvalJ tot }) ∧
      jget (.obj (jset (jset fs "price" (fvalJ p)) "total" (fvalJ (fvMul p (qtyOf fs)))))
        "total" = fvalJ (fvMul p (qtyOf fs)) ∧
      jget (.obj (jset (jset fs "price" (fvalJ p)) "total" (fvalJ (fvMul p (qtyOf fs)))))
        "price" = fvalJ p ∧
      (∀ j, j ≠ i → (its.set i (.obj (jset (jset fs "price" (fvalJ p)) "total"
        (fvalJ (fvMul p (qtyOf fs)))))).getD j .null = its.getD j .null)) ∧
    (∀ (r : StoredReceipt) (its : List JVal) (i : Nat) (fs : List (String × JVal))
       (qv : JVal) (q2 pr tot : FVal),
      r.items = .arr its → i < its.length →
      its.getD i .null = .obj fs →
      pyFloat? qv = some q2 → fvLeZeroB q2 = false →
      priceOf? fs = some pr →
      sumTotals (its.set i (.obj (jset (jset fs "quantity" (fvalJ q2)) "total"
        (fvalJ (fvMul pr q2))))) = some tot →
      update_receipt_field r .null .null (.num ⟨(i : Int), 1⟩) (.str "quantity") qv =
        (.success, { r with
          items := .arr (its.set i (.obj (jset (jset fs "quantity" (fvalJ q2)) "total"
            (fvalJ (fvMul pr q2))))),
          total := fvalJ tot }) ∧
      jget (.obj (jset (jset fs "quantity" (fvalJ q2)) "total" (fvalJ (fvMul pr q2))))
        "total" = fvalJ (fvMul pr q2) ∧
      jget (.obj (jset (jset fs "quantity" (fvalJ q2)) "total" (fvalJ (fvMul pr q2))))
        "quantity" = fvalJ q2 ∧
      (∀ j, j ≠ i → (its.set i (.obj (jset (jset fs "quantity" (fvalJ q2)) "total"
        (fvalJ (fvMul pr q2))))).getD j .null = its.getD j .null)) := by
  constructor
  · intro r its i fs pv p tot hits hi hfs hpn hpf hsum
    refine ⟨update_item_price_ok r its i fs pv p tot hits hi hfs hpn hpf hsum, ?_, ?_, ?_⟩
    · show (jlookup (jset (jset fs "price" (fvalJ p)) "total" (fvalJ (fvMul p (qtyOf fs))))
          "total").getD .null = _
      rw [jlookup_jset_self]
      rfl
    · show (jlookup (jset (jset fs "price" (fvalJ p)) "total" (fvalJ (fvMul p (qtyOf fs))))
          "price").getD .null = _
      rw [jlookup_jset_ne _ _ _ _ (by decide), jlookup_jset_self]
      rfl
    · intro j hj
      exact getD_set_ne _ i j _ hj
  · intro r its i fs qv q2 pr tot hits hi hfs hqv hpos hpr hsum
    refine ⟨update_quantity_ok r its i fs qv q2 pr tot hits hi hfs hqv hpos hpr hsum, ?_, ?_, ?_⟩
    · show (jlookup (jset (jset fs "quantity" (fvalJ q2)) "total" (fvalJ (fvMul pr q2)))
          "total").getD .null = _
      rw [jlookup_jset_self]
      rfl
    · show (jlookup (jset (jset fs "quantity" (fvalJ q2)) "total" (fvalJ (fvMul pr q2)))
          "quantity").getD .null = _
      rw [jlookup_jset_ne _ _ _ _ (by decide), jlookup_jset_self]
      rfl
    · intro j hj
      exact getD_set_ne _ i j _ hj

/-- Witness for the amended C6: the counterexample receipt's price edit
(fallback quantity `1`) and a quantity edit on a receipt with numeric
fields, each with the stored state spelled out. -/
theorem c6_witness :
    update_item_price cexQR (.num ⟨0, 1⟩) (.num ⟨5, 1⟩) =
      (.success, { cexQR with
        items := .arr ([cexQitem].set 0 (.obj (jset (jset cexQfs "price" (fvalJ (.fin ⟨5, 1⟩)))
          "total" (fvalJ (fvMul (.fin ⟨5, 1⟩) (qtyOf cexQfs)))))),
        total := fvalJ (.fin ⟨5, 1⟩) }) ∧
    update_receipt_field rX .null .null (.num ⟨0, 1⟩) (.str "quantity") (.num ⟨5, 1⟩) =
      (.success, { rX with
        items := .arr ([rxItemA, rxItemB].set 0 (.obj (jset (jset rxFieldsA "quantity"
          (fvalJ (.fin ⟨5, 1⟩))) "total" (fvalJ (fvMul (.fin ⟨3, 1⟩) (.fin ⟨5, 1⟩)))))),
        total := fvalJ (.fin ⟨19, 1⟩) }) :=
  ⟨(c6_thm.1 cexQR [cexQitem] 0 cexQfs (.num ⟨5, 1⟩) (.fin ⟨5, 1⟩) (.fin ⟨5, 1⟩)
      rfl (by decide) rfl rfl rfl (by rfl)).1,
   (c6_thm.2 rX [rxItemA, rxItemB] 0 rxFieldsA (.num ⟨5, 1⟩) (.fin ⟨5, 1⟩) (.fin ⟨3, 1⟩)
      (.fin ⟨19, 1⟩) rfl (by decide) rfl rfl rfl rfl (by rfl)).1⟩

/-- Claim C7, counterexample: a price edit with the non-positive value `-5`
is accepted — the route reports success and mutates the stored receipt
(its total becomes `-6`) — rather than rejecting it as an invalid update. -/
theorem c7_cex :
    (update_item_price rX (.num ⟨0, 1⟩) (.num ⟨-5, 1⟩)).1 = .success ∧
    (update_item_price rX (.num ⟨0, 1⟩) (.num ⟨-5, 1⟩)).2.total ≠ rX.total := by
  refine ⟨rfl, ?_⟩
  intro hcontra
  exact absurd (congrArg jnumOf hcontra) (by decide)

/-- Claim C7, amended: a quantity edit is rejected as `Invalid quantity`
when `float(item_value)` raises, and as `Quantity must be positive` when
the converted value satisfies `qty <= 0` (which holds for non-positive
finite values and `-inf` but, comparisons with `nan` being `False`, not for
`nan`), each rejection leaving the receipt unchanged; a converted value
with `qty <= 0` false — any positive number, and also `nan` or `inf` — is
accepted.  A price edit requires only that the conversion succeed: a raise
is rejected as `Invalid price format` with the receipt unchanged, while
every converted value — zero, negative or non-finite — is accepted and
mutates the receipt.  The rejection parts are stated for ASCII string
values (and non-strings), on which the `float` model is exact. -/
theorem c7_thm :
    (∀ (r : StoredReceipt) (iJ pv : JVal),
      isNullB iJ = false → isNullB pv = false → asciiOkB pv = true →
      priceFloat? pv = none →
      update_item_price r iJ pv = (.badRequest "Invalid price format", r)) ∧
    (∀ (r : StoredReceipt) (its : List JVal) (i : Nat) (fs : List (String × JVal))
       (pv : JVal) (p tot : FVal),
      r.items = .arr its → i < its.length → its.getD i .null = .obj fs →
      isNullB pv = false → priceFloat? pv = some p →
      sumTotals (its.set i (.obj (jset (jset fs "price" (fvalJ p)) "total"
        (fvalJ (fvMul p (qtyOf fs)))))) = some tot →
      (update_item_price r (.num ⟨(i : Int), 1⟩) pv).1 = .success) ∧
    (∀ (r : StoredReceipt) (its : List JVal) (i : Nat) (qv : JVal),
      r.items = .arr its → i < its.length → asciiOkB qv = true →
      pyFloat? qv = none →
      update_receipt_field r .null .null (.num ⟨(i : Int), 1⟩) (.str "quantity") qv =
        (.badRequest "Invalid quantity", r)) ∧
    (∀ (r : StoredReceipt) (its : List JVal) (i : Nat) (qv : JVal) (q2 : FVal),
      r.items = .arr its → i < its.length →
      pyFloat? qv = some q2 → fvLeZeroB q2 = true →
      update_receipt_field r .null .null (.num ⟨(i : Int), 1⟩) (.str "quantity") qv =
        (.badRequest "Quantity must be positive", r)) ∧
    (∀ (r : StoredReceipt) (its : List JVal) (i : Nat) (fs : List (String × JVal))
       (qv : JVal) (q2 pr tot : FVal),
      r.items = .arr its → i < its.length → its.getD i .null = .obj fs →
      pyFloat? qv = some q2 → fvLeZeroB q2 = false →
      priceOf? fs = some pr →
      sumTotals (its.set i (.obj (jset (jset fs "quantity" (fvalJ q2)) "total"
        (fvalJ (fvMul pr q2))))) = some tot →
      (update_receipt_field r .null .null (.num ⟨(i : Int), 1⟩) (.str "quantity") qv).1 =
        .success) := by
  refine ⟨?_, ?_, ?_, update_quantity_nonpos, ?_⟩
  · intro r iJ pv hin hpn hok hpf
    exact update_item_price_badformat r iJ pv hin hpn hpf
  · intro r its i fs pv p tot hits hi hfs hpn hpf hsum
    rw [update_item_price_ok r its i fs pv p tot hits hi hfs hpn hpf hsum]
  · intro r its i qv hits hi hok hqv
    exact update_quantity_badparse r its i qv hits hi hqv
  · intro r its i fs qv q2 pr tot hits hi hfs hqv hpos hpr hsum
    rw [update_quantity_ok r its i fs qv q2 pr tot hits hi hfs hqv hpos hpr hsum]

/-- Witness for the amended C7 on concrete receipts: an unparsable price is
rejected; prices `-5` and `"nan"` are accepted; the underscored quantity
`"1_000"` converts to `1000` and is accepted, as is `"nan"`; an unparsable
quantity and the quantity `0` are rejected. -/
theorem c7_witness :
    update_item_price rX (.num ⟨0, 1⟩) (.str "abc") = (.badRequest "Invalid price format", rX) ∧
    (update_item_price rX (.num ⟨0, 1⟩) (.num ⟨-5, 1⟩)).1 = .success ∧
    (update_item_price rX (.num ⟨0, 1⟩) (.str "nan")).1 = .success ∧
    pyFloat? (.str "1_000") = some (.fin ⟨1000, 1⟩) ∧
    (update_receipt_field rX .null .null (.num ⟨0, 1⟩) (.str "quantity") (.str "1_000")).1 =
      .success ∧
    (update_receipt_field rX .null .null (.num ⟨0, 1⟩) (.str "quantity") (.str "nan")).1 =
      .success ∧
    update_receipt_field rX .null .null (.num ⟨0, 1⟩) (.str "quantity") (.str "abc") =
      (.badRequest "Invalid quantity", rX) ∧
    update_receipt_field rX .null .null (.num ⟨0, 1⟩) (.str "quantity") (.num ⟨0, 1⟩) =
      (.badRequest "Quantity must be positive", rX) :=
  ⟨c7_thm.1 rX (.num ⟨0, 1⟩) (.str "abc") rfl rfl rfl rfl,
   c7_thm.2.1 rX [rxItemA, rxItemB] 0 rxFieldsA (.num ⟨-5, 1⟩) (.fin ⟨-5, 1⟩)
     (.fin ⟨-6, 1⟩) rfl (by decide) rfl rfl rfl (by rfl),
   c7_thm.2.1 rX [rxItemA, rxItemB] 0 rxFieldsA (.str "nan") (.nf .nan)
     (.nf .nan) rfl (by decide) rfl rfl rfl (by rfl),
   rfl,
   c7_thm.2.2.2.2 rX [rxItemA, rxItemB] 0 rxFieldsA (.str "1_000") (.fin ⟨1000, 1⟩)
     (.fin ⟨3, 1⟩) (.fin ⟨3004, 1⟩) rfl (by decide) rfl rfl rfl rfl (by rfl),
   c7_thm.2.2.2.2 rX [rxItemA, rxItemB] 0 rxFieldsA (.str "nan") (.nf .nan)
     (.fin ⟨3, 1⟩) (.nf .nan) rfl (by decide) rfl rfl rfl rfl (by rfl),
   c7_thm.2.2.1 rX [rxItemA, rxItemB] 0 (.str "abc") rfl (by decide) rfl rfl,
   c7_thm.2.2.2.1 rX [rxItemA, rxItemB] 0 (.num ⟨0, 1⟩) (.fin ⟨0, 1⟩) rfl (by decide) rfl rfl⟩
